import Mathlib

/-!
PGA308 half-duplex UART driver: register protocol and configuration sequence.

A shallow embedding of `PGA308.c` / `PGA308.h`.  The driver talks to the chip
through four functions of the STM32 HAL (enable transmitter, transmit, enable
receiver, receive).  These are external to the driver, so the embedding takes
them as a parameter: an arbitrary state-passing transport over an arbitrary
state type.  Every driver function threads a `World`, the transport state
together with a chronological record of what the driver did: which
single-register operation it entered and which HAL call it made with which
arguments and result.  The record is never inspected by the driver.

Machine integers are natural numbers; a value stored into a `uint8_t` is
reduced modulo 256 and a value stored into a `uint16_t` modulo 65536.
-/

namespace PGA308

/-! ## Constants of `PGA308.h` -/

def PGA_ZDAC_REG : Nat := 0x00
def PGA_GDAC_REG : Nat := 0x01
def PGA_CFG0_REG : Nat := 0x02
def PGA_CFG1_REG : Nat := 0x03
def PGA_CFG2_REG : Nat := 0x04
def PGA_CHKS_REG : Nat := 0x05
def PGA_CHSR_REG : Nat := 0x06
def PGA_SFTC_REG : Nat := 0x07
def PGA_OENC_REG : Nat := 0x08
def PGA_ALMR_REG : Nat := 0x09
def PGA_OTPS_REG : Nat := 0x0A

def PGA_SFTC_SWL_SOFTLOCK : Nat := 0x0050

def PGA_SYNC : Nat := 0x55
def PGA_ACCESS_READ : Nat := 0x80
def PGA_ACCESS_WRITE : Nat := 0x00
def PGA_ACCESS_OTP : Nat := 0x40
def PGA_ACCESS_RAM : Nat := 0x00

/-- Status return values for PGA308 operations (`PGA308_Error_TypeDef`). -/
inductive PGA308_Error_TypeDef
  | PGA_NO_ERROR
  | PGA_ERROR
  | PGA_HAL_ERROR
  | PGA_INV_REG_DATA_READ
  | PGA_ID_VERIFY_ERROR
  deriving DecidableEq, Repr

open PGA308_Error_TypeDef

/-- The hardware interface structure.  The pointer to the UART peripheral is
represented by the transport state threaded through the calls; the timeout is
the `uint8_t` field handed to every transmit and receive. -/
structure PGA308_HW_InitTypeDef where
  USART_Timeout : Nat
  deriving DecidableEq, Repr

/-- The register map structure: eleven `uint16_t` fields. -/
structure PGA308_Registers_InitTypeDef where
  REG_ZDAC : Nat
  REG_GDAC : Nat
  REG_CFG0 : Nat
  REG_CFG1 : Nat
  REG_CFG2 : Nat
  REG_CHKS : Nat
  REG_CHSR : Nat
  REG_SFTC : Nat
  REG_OENC : Nat
  REG_ALMR : Nat
  REG_OTPS : Nat
  deriving DecidableEq, Repr

/-! ## The transport (STM32 HAL, external to the driver) -/

/-- The status type of the STM32 HAL.  The driver only ever compares a status
with `HAL_OK`. -/
inductive HAL_StatusTypeDef
  | HAL_OK
  | HAL_ERROR
  | HAL_BUSY
  | HAL_TIMEOUT
  deriving DecidableEq, Repr

open HAL_StatusTypeDef

/-- An arbitrary half-duplex transport over a state type `σ`.  `transmit`
receives the bytes of the buffer, the size argument and the timeout; `receive`
receives the size argument and the timeout and yields, next to its status, the
contents it left in the two-byte receive buffer. -/
structure Transport (σ : Type) where
  enableTransmitter : σ → HAL_StatusTypeDef × σ
  enableReceiver : σ → HAL_StatusTypeDef × σ
  transmit : List Nat → Nat → Nat → σ → HAL_StatusTypeDef × σ
  receive : Nat → Nat → σ → HAL_StatusTypeDef × (Nat × Nat) × σ

/-- One entry of the record of a run: the entry into a single-register
operation with its arguments, or one HAL call with its arguments and result. -/
inductive Event
  | call_Write (addr data : Nat)
  | call_Read (addr : Nat)
  | EnableTransmitter (status : HAL_StatusTypeDef)
  | Transmit (pData : List Nat) (size timeout : Nat) (status : HAL_StatusTypeDef)
  | EnableReceiver (status : HAL_StatusTypeDef)
  | Receive (size timeout : Nat) (status : HAL_StatusTypeDef) (b0 b1 : Nat)
  deriving DecidableEq, Repr

/-- The transport state and the chronological record of the run so far. -/
structure World (σ : Type) where
  uart : σ
  log : List Event

/-- A world at the start of an observation: nothing recorded yet. -/
def World.start {σ : Type} (s : σ) : World σ := { uart := s, log := [] }

def HAL_HalfDuplex_EnableTransmitter {σ : Type} (hal : Transport σ) (w : World σ) :
    HAL_StatusTypeDef × World σ :=
  let r := hal.enableTransmitter w.uart
  (r.1, { uart := r.2, log := w.log ++ [Event.EnableTransmitter r.1] })

def HAL_HalfDuplex_EnableReceiver {σ : Type} (hal : Transport σ) (w : World σ) :
    HAL_StatusTypeDef × World σ :=
  let r := hal.enableReceiver w.uart
  (r.1, { uart := r.2, log := w.log ++ [Event.EnableReceiver r.1] })

def HAL_UART_Transmit {σ : Type} (hal : Transport σ) (pData : List Nat) (size timeout : Nat)
    (w : World σ) : HAL_StatusTypeDef × World σ :=
  let r := hal.transmit pData size timeout w.uart
  (r.1, { uart := r.2, log := w.log ++ [Event.Transmit pData size timeout r.1] })

/-- The two bytes come back as stored in the `uint8_t` receive buffer. -/
def HAL_UART_Receive {σ : Type} (hal : Transport σ) (size timeout : Nat) (w : World σ) :
    HAL_StatusTypeDef × (Nat × Nat) × World σ :=
  let r := hal.receive size timeout w.uart
  let b0 := r.2.1.1 % 256
  let b1 := r.2.1.2 % 256
  (r.1, (b0, b1), { uart := r.2.2, log := w.log ++ [Event.Receive size timeout r.1 b0 b1] })

/-! ## The driver (`PGA308.c`) -/

/-- Source: `PGA308_SingleRegister_Write`, lines 33-50. -/
def PGA308_SingleRegister_Write {σ : Type} (hal : Transport σ)
    (PGA308_Handler : PGA308_HW_InitTypeDef) (PGA308_Register_Addr PGA308_Write_Data : Nat)
    (w : World σ) : PGA308_Error_TypeDef × World σ :=
  let w := { w with log := w.log ++ [Event.call_Write PGA308_Register_Addr PGA308_Write_Data] }
  let r := HAL_HalfDuplex_EnableTransmitter hal w
  if r.1 ≠ HAL_OK then (PGA_HAL_ERROR, r.2) else
  let d0 := PGA_SYNC % 256
  let d1 := (PGA_ACCESS_RAM ||| PGA_ACCESS_WRITE ||| PGA308_Register_Addr) % 256
  let d2 := (PGA308_Write_Data &&& 0xFF) % 256
  let d3 := (PGA308_Write_Data >>> 8) % 256
  let r := HAL_UART_Transmit hal [d0, d1, d2, d3] 4 PGA308_Handler.USART_Timeout r.2
  if r.1 ≠ HAL_OK then (PGA_HAL_ERROR, r.2) else
  (PGA_NO_ERROR, r.2)

/-- Source: `PGA308_SingleRegister_Read`, lines 110-132.  `PGA308_Read_Data` is
the content of the caller's variable before the call; the second component of
the result is its content after the call (stored to only on success). -/
def PGA308_SingleRegister_Read {σ : Type} (hal : Transport σ)
    (PGA308_Handler : PGA308_HW_InitTypeDef) (PGA308_Register_Addr : Nat)
    (PGA308_Read_Data : Nat) (w : World σ) : PGA308_Error_TypeDef × Nat × World σ :=
  let w := { w with log := w.log ++ [Event.call_Read PGA308_Register_Addr] }
  let d0 := PGA_SYNC % 256
  let d1 := (PGA_ACCESS_RAM ||| PGA_ACCESS_READ ||| PGA308_Register_Addr) % 256
  let r := HAL_HalfDuplex_EnableTransmitter hal w
  if r.1 ≠ HAL_OK then (PGA_HAL_ERROR, PGA308_Read_Data, r.2) else
  let r := HAL_UART_Transmit hal [d0, d1] 2 PGA308_Handler.USART_Timeout r.2
  if r.1 ≠ HAL_OK then (PGA_HAL_ERROR, PGA308_Read_Data, r.2) else
  let r := HAL_HalfDuplex_EnableReceiver hal r.2
  if r.1 ≠ HAL_OK then (PGA_HAL_ERROR, PGA308_Read_Data, r.2) else
  let r := HAL_UART_Receive hal 2 PGA308_Handler.USART_Timeout r.2
  if r.1 ≠ HAL_OK then (PGA_HAL_ERROR, PGA308_Read_Data, r.2.2) else
  (PGA_NO_ERROR, ((r.2.1.2 <<< 8) + r.2.1.1) % 65536, r.2.2)

/-- Source: `PGA308_Enable`, lines 62-98.  The outcomes of the single-register
operations are discarded, as in the source; only the read-back variable
`PGA_Reg_Return` is compared. -/
def PGA308_Enable {σ : Type} (hal : Transport σ) (PGA308_Handler : PGA308_HW_InitTypeDef)
    (PGA308_Registers : PGA308_Registers_InitTypeDef) (w : World σ) :
    PGA308_Error_TypeDef × World σ :=
  let PGA_Reg_Return := 0
  let wr := PGA308_SingleRegister_Write hal PGA308_Handler PGA_SFTC_REG PGA_SFTC_SWL_SOFTLOCK w
  let rd := PGA308_SingleRegister_Read hal PGA308_Handler PGA_SFTC_REG PGA_Reg_Return wr.2
  let PGA_Reg_Return := rd.2.1
  if PGA_Reg_Return ≠ PGA_SFTC_SWL_SOFTLOCK then (PGA_INV_REG_DATA_READ, rd.2.2) else
  let wr := PGA308_SingleRegister_Write hal PGA308_Handler PGA_ZDAC_REG
    PGA308_Registers.REG_ZDAC rd.2.2
  let rd := PGA308_SingleRegister_Read hal PGA308_Handler PGA_ZDAC_REG PGA_Reg_Return wr.2
  let PGA_Reg_Return := rd.2.1
  if PGA_Reg_Return ≠ PGA308_Registers.REG_ZDAC then (PGA_INV_REG_DATA_READ, rd.2.2) else
  let wr := PGA308_SingleRegister_Write hal PGA308_Handler PGA_GDAC_REG
    PGA308_Registers.REG_GDAC rd.2.2
  let rd := PGA308_SingleRegister_Read hal PGA308_Handler PGA_GDAC_REG PGA_Reg_Return wr.2
  let PGA_Reg_Return := rd.2.1
  if PGA_Reg_Return ≠ PGA308_Registers.REG_GDAC then (PGA_INV_REG_DATA_READ, rd.2.2) else
  let wr := PGA308_SingleRegister_Write hal PGA308_Handler PGA_CFG0_REG
    PGA308_Registers.REG_CFG0 rd.2.2
  let rd := PGA308_SingleRegister_Read hal PGA308_Handler PGA_CFG0_REG PGA_Reg_Return wr.2
  let PGA_Reg_Return := rd.2.1
  if PGA_Reg_Return ≠ PGA308_Registers.REG_CFG0 then (PGA_INV_REG_DATA_READ, rd.2.2) else
  let wr := PGA308_SingleRegister_Write hal PGA308_Handler PGA_CFG1_REG
    PGA308_Registers.REG_CFG1 rd.2.2
  let rd := PGA308_SingleRegister_Read hal PGA308_Handler PGA_CFG1_REG PGA_Reg_Return wr.2
  let PGA_Reg_Return := rd.2.1
  if PGA_Reg_Return ≠ PGA308_Registers.REG_CFG1 then (PGA_INV_REG_DATA_READ, rd.2.2) else
  let wr := PGA308_SingleRegister_Write hal PGA308_Handler PGA_CFG2_REG
    PGA308_Registers.REG_CFG2 rd.2.2
  let rd := PGA308_SingleRegister_Read hal PGA308_Handler PGA_CFG2_REG PGA_Reg_Return wr.2
  let PGA_Reg_Return := rd.2.1
  if PGA_Reg_Return ≠ PGA308_Registers.REG_CFG2 then (PGA_INV_REG_DATA_READ, rd.2.2) else
  (PGA_NO_ERROR, rd.2.2)

/-- Source: `PGA308_All_Registers_Read`, lines 144-159.  The structure passed
in holds the fields before the call; the second component of the result holds
them after the call: each read stores through the pointer to its own field. -/
def PGA308_All_Registers_Read {σ : Type} (hal : Transport σ)
    (PGA308_Handler : PGA308_HW_InitTypeDef)
    (PGA308_Registers : PGA308_Registers_InitTypeDef) (w : World σ) :
    PGA308_Error_TypeDef × PGA308_Registers_InitTypeDef × World σ :=
  let r0 := PGA308_SingleRegister_Read hal PGA308_Handler PGA_ZDAC_REG
    PGA308_Registers.REG_ZDAC w
  let r1 := PGA308_SingleRegister_Read hal PGA308_Handler PGA_GDAC_REG
    PGA308_Registers.REG_GDAC r0.2.2
  let r2 := PGA308_SingleRegister_Read hal PGA308_Handler PGA_CFG0_REG
    PGA308_Registers.REG_CFG0 r1.2.2
  let r3 := PGA308_SingleRegister_Read hal PGA308_Handler PGA_CFG1_REG
    PGA308_Registers.REG_CFG1 r2.2.2
  let r4 := PGA308_SingleRegister_Read hal PGA308_Handler PGA_CFG2_REG
    PGA308_Registers.REG_CFG2 r3.2.2
  let r5 := PGA308_SingleRegister_Read hal PGA308_Handler PGA_CHKS_REG
    PGA308_Registers.REG_CHKS r4.2.2
  let r6 := PGA308_SingleRegister_Read hal PGA308_Handler PGA_CHSR_REG
    PGA308_Registers.REG_CHSR r5.2.2
  let r7 := PGA308_SingleRegister_Read hal PGA308_Handler PGA_SFTC_REG
    PGA308_Registers.REG_SFTC r6.2.2
  let r8 := PGA308_SingleRegister_Read hal PGA308_Handler PGA_OENC_REG
    PGA308_Registers.REG_OENC r7.2.2
  let r9 := PGA308_SingleRegister_Read hal PGA308_Handler PGA_ALMR_REG
    PGA308_Registers.REG_ALMR r8.2.2
  let r10 := PGA308_SingleRegister_Read hal PGA308_Handler PGA_OTPS_REG
    PGA308_Registers.REG_OTPS r9.2.2
  (PGA_NO_ERROR,
   { REG_ZDAC := r0.2.1,
     REG_GDAC := r1.2.1,
     REG_CFG0 := r2.2.1,
     REG_CFG1 := r3.2.1,
     REG_CFG2 := r4.2.1,
     REG_CHKS := r5.2.1,
     REG_CHSR := r6.2.1,
     REG_SFTC := r7.2.1,
     REG_OENC := r8.2.1,
     REG_ALMR := r9.2.1,
     REG_OTPS := r10.2.1 },
   r10.2.2)

/-! ## Reading the record of a run -/

/-- A HAL call that returned something other than `HAL_OK`. -/
def Event.failed : Event → Bool
  | .EnableTransmitter st => decide (st ≠ HAL_OK)
  | .Transmit _ _ _ st => decide (st ≠ HAL_OK)
  | .EnableReceiver st => decide (st ≠ HAL_OK)
  | .Receive _ _ st _ _ => decide (st ≠ HAL_OK)
  | _ => false

/-- An entry that is a HAL call (a transport call), not the entry into an operation. -/
def Event.isHal : Event → Bool
  | .call_Write _ _ => false
  | .call_Read _ => false
  | _ => true

/-- A single-register operation, as invoked. -/
inductive Op
  | write (addr data : Nat)
  | read (addr : Nat)
  deriving DecidableEq, Repr

def Event.op : Event → Option Op
  | .call_Write a v => some (Op.write a v)
  | .call_Read a => some (Op.read a)
  | _ => none

/-- The single-register operations of a record, in order. -/
def ops (t : List Event) : List Op := t.filterMap Event.op

/-- The transport calls of a record, in order. -/
def halCalls (t : List Event) : List Event := t.filter Event.isHal

/-- The frames handed to the transport in a record, in order. -/
def frames : List Event → List (List Nat)
  | [] => []
  | .Transmit pData _ _ _ :: t => pData :: frames t
  | _ :: t => frames t

/-- The 16-bit value carried by two reply bytes, low byte first (spec 4.1). -/
def replyValue (b0 b1 : Nat) : Nat := b0 ||| (b1 <<< 8)

/-- The register memory after value `v` was written to address `a`. -/
def remember (mem : Nat → Option Nat) (a v : Nat) : Nat → Option Nat :=
  fun x => if x = a then some v else mem x

/-- Walks a record and yields, for every successful receive in order, whether the
value received equals the value last written to the register being read.  `mem`
holds, per address, the value last passed to a single-register write, `cur`
the address of the single-register read in progress. -/
def readBacksFrom (mem : Nat → Option Nat) (cur : Option Nat) : List Event → List Bool
  | [] => []
  | .call_Write a v :: t => readBacksFrom (remember mem a v) cur t
  | .call_Read a :: t => readBacksFrom mem (some a) t
  | .Receive _ _ .HAL_OK b0 b1 :: t =>
      decide (cur.bind mem = some (replyValue b0 b1)) :: readBacksFrom mem cur t
  | _ :: t => readBacksFrom mem cur t

/-- The read-back verdicts of a record that starts with nothing written. -/
def readBacks (t : List Event) : List Bool := readBacksFrom (fun _ => none) none t

/-- The write+read pairs of the configuration sequence, in the order of the source. -/
def Enable_sequence (PGA308_Registers : PGA308_Registers_InitTypeDef) : List (Nat × Nat) :=
  [(PGA_SFTC_REG, PGA_SFTC_SWL_SOFTLOCK),
   (PGA_ZDAC_REG, PGA308_Registers.REG_ZDAC),
   (PGA_GDAC_REG, PGA308_Registers.REG_GDAC),
   (PGA_CFG0_REG, PGA308_Registers.REG_CFG0),
   (PGA_CFG1_REG, PGA308_Registers.REG_CFG1),
   (PGA_CFG2_REG, PGA308_Registers.REG_CFG2)]

/-- The operations of a list of write+read pairs: each write followed by the read
of the same address. -/
def pairOps : List (Nat × Nat) → List Op
  | [] => []
  | (a, v) :: rest => Op.write a v :: Op.read a :: pairOps rest

/-- No entry of the record is followed by anything once it is a failed HAL call. -/
def failureIsLast : List Event → Bool
  | [] => true
  | [_] => true
  | e :: e2 :: rest => !e.failed && failureIsLast (e2 :: rest)

/-- A failed HAL call of the record is never directly followed by another HAL
call: what follows it, if anything, is the entry into the next operation. -/
def failureEndsOperation : List Event → Bool
  | [] => true
  | [_] => true
  | e :: e2 :: rest => (!e.failed || !e2.isHal) && failureEndsOperation (e2 :: rest)

/-- The write, read, compare triple of `PGA308_Enable` iterated over a list of
(address, value) pairs, threading the read-back variable; `PGA308_Enable` is
this iteration over `Enable_sequence`, started with the read-back variable 0
(theorem `Enable_eq_runPairs`). -/
def runPairs {σ : Type} (hal : Transport σ) (h : PGA308_HW_InitTypeDef) :
    List (Nat × Nat) → Nat → World σ → PGA308_Error_TypeDef × World σ
  | [], _, w => (PGA_NO_ERROR, w)
  | (a, v) :: rest, ret, w =>
    let wr := PGA308_SingleRegister_Write hal h a v w
    let rd := PGA308_SingleRegister_Read hal h a ret wr.2
    if rd.2.1 ≠ v then (PGA_INV_REG_DATA_READ, rd.2.2) else runPairs hal h rest rd.2.1 rd.2.2

/-- The transport calls a single-register write can record after its entry. -/
inductive WriteTail (A V tmo : Nat) : List Event → Prop
  | enableFailed (st : HAL_StatusTypeDef) (hst : st ≠ HAL_OK) :
      WriteTail A V tmo [Event.EnableTransmitter st]
  | transmitted (st : HAL_StatusTypeDef) :
      WriteTail A V tmo [Event.EnableTransmitter HAL_OK,
        Event.Transmit [0x55, A % 256, (V &&& 0xFF) % 256, (V >>> 8) % 256] 4 tmo st]

/-- The transport calls a single-register read can record after its entry,
together with the content of the output variable afterwards (`old` is its
content before). -/
inductive ReadTail (A tmo old : Nat) : List Event → Nat → Prop
  | enableFailed (st : HAL_StatusTypeDef) (hst : st ≠ HAL_OK) :
      ReadTail A tmo old [Event.EnableTransmitter st] old
  | transmitFailed (st : HAL_StatusTypeDef) (hst : st ≠ HAL_OK) :
      ReadTail A tmo old [Event.EnableTransmitter HAL_OK,
        Event.Transmit [0x55, (0x80 ||| A) % 256] 2 tmo st] old
  | receiverFailed (st : HAL_StatusTypeDef) (hst : st ≠ HAL_OK) :
      ReadTail A tmo old [Event.EnableTransmitter HAL_OK,
        Event.Transmit [0x55, (0x80 ||| A) % 256] 2 tmo HAL_OK, Event.EnableReceiver st] old
  | receiveFailed (st : HAL_StatusTypeDef) (b0 b1 : Nat) (hst : st ≠ HAL_OK) :
      ReadTail A tmo old [Event.EnableTransmitter HAL_OK,
        Event.Transmit [0x55, (0x80 ||| A) % 256] 2 tmo HAL_OK, Event.EnableReceiver HAL_OK,
        Event.Receive 2 tmo st b0 b1] old
  | received (b0 b1 : Nat) (h0 : b0 < 256) (h1 : b1 < 256) :
      ReadTail A tmo old [Event.EnableTransmitter HAL_OK,
        Event.Transmit [0x55, (0x80 ||| A) % 256] 2 tmo HAL_OK, Event.EnableReceiver HAL_OK,
        Event.Receive 2 tmo HAL_OK b0 b1] (replyValue b0 b1)

/-- The records and outcomes the iterated write, read, compare triple can
produce over a list of pairs, from a given content of the read-back variable. -/
inductive RunTrace (tmo : Nat) : List (Nat × Nat) → Nat → List Event →
    PGA308_Error_TypeDef → Prop
  | done (ret : Nat) : RunTrace tmo [] ret [] PGA_NO_ERROR
  | mismatch (a v : Nat) (rest : List (Nat × Nat)) (ret : Nat) (W R : List Event) (out : Nat) :
      WriteTail a v tmo W → ReadTail a tmo ret R out → out ≠ v →
      RunTrace tmo ((a, v) :: rest) ret
        (Event.call_Write a v :: W ++ Event.call_Read a :: R) PGA_INV_REG_DATA_READ
  | verified (a v : Nat) (rest : List (Nat × Nat)) (ret : Nat) (W R T : List Event)
      (res : PGA308_Error_TypeDef) :
      WriteTail a v tmo W → ReadTail a tmo ret R v → RunTrace tmo rest v T res →
      RunTrace tmo ((a, v) :: rest) ret
        ((Event.call_Write a v :: W ++ Event.call_Read a :: R) ++ T) res

/-- The HAL calls recorded up to the next entry into an operation. -/
def segment : List Event → List Event
  | [] => []
  | e :: t => if e.isHal then e :: segment t else []

/-- Every single-register read of a record, in order: its address and the HAL
calls it made. -/
def readSegments : List Event → List (Nat × List Event)
  | [] => []
  | .call_Read a :: t => (a, segment t) :: readSegments t
  | _ :: t => readSegments t

/-- The value received in the HAL calls of one read: the decoded reply of its
successful receive, if there is one. -/
def received : List Event → Option Nat
  | [] => none
  | .Receive _ _ .HAL_OK b0 b1 :: _ => some (replyValue b0 b1)
  | _ :: t => received t

/-- Every single-register read of a record, in order: its address, whether one
of its HAL calls failed, and the value it received. -/
def readOutcomes (t : List Event) : List (Nat × Bool × Option Nat) :=
  (readSegments t).map (fun p => (p.1, p.2.any Event.failed, received p.2))

/-- What a single-register read that went as `o` (failed?, value received) does
to the variable it stores to: a failed read received nothing and leaves the
variable at `old`; a read that did not fail received exactly the new content. -/
def FieldEffect (old new : Nat) (o : Bool × Option Nat) : Prop :=
  (o = (true, none) ∧ new = old) ∨ o = (false, some new)

/-- The operations split into consecutive pairs of a write and a read of the
same address. -/
def writeReadPaired : List Op → Bool
  | [] => true
  | Op.write a _ :: Op.read b :: rest => decide (a = b) && writeReadPaired rest
  | _ => false

/-- A HAL call of the receive direction: enable-receiver or receive. -/
def Event.receives : Event → Bool
  | .EnableReceiver _ => true
  | .Receive _ _ _ _ _ => true
  | _ => false

/-- The closed set of outcomes: success, transport failure or verification
mismatch, and neither the identity-verification failure nor the generic error. -/
def closedOutcome (e : PGA308_Error_TypeDef) : Prop :=
  (e = PGA_NO_ERROR ∨ e = PGA_HAL_ERROR ∨ e = PGA_INV_REG_DATA_READ) ∧
    e ≠ PGA_ID_VERIFY_ERROR ∧ e ≠ PGA_ERROR

/-! ## Concrete transports -/

/-- The state of a simulated chip: the register file (most recent write first)
and the address selected by the last read command. -/
structure Chip where
  ram : List (Nat × Nat)
  sel : Nat

def Chip.lookup : List (Nat × Nat) → Nat → Nat
  | [], _ => 0
  | (a, v) :: rest, x => if x = a then v else Chip.lookup rest x

/-- A transport that never fails and answers every read command with the value
last written to the addressed register. -/
def echoTransport : Transport Chip where
  enableTransmitter := fun c => (HAL_OK, c)
  enableReceiver := fun c => (HAL_OK, c)
  transmit := fun pData _ _ c =>
    match pData with
    | [_, cmd, lo, hi] => (HAL_OK, { c with ram := (cmd, lo + 256 * hi) :: c.ram })
    | [_, cmd] => (HAL_OK, { c with sel := cmd - 0x80 })
    | _ => (HAL_OK, c)
  receive := fun _ _ c =>
    (HAL_OK, (Chip.lookup c.ram c.sel % 256, Chip.lookup c.ram c.sel / 256), c)

/-- A transport that answers its calls, whatever they are, with the next entry of
a script: a status and two reply bytes (used by receive only).  When the script
is exhausted every call times out. -/
def scriptedTransport : Transport (List (HAL_StatusTypeDef × Nat × Nat)) where
  enableTransmitter := fun s =>
    match s with
    | [] => (HAL_TIMEOUT, [])
    | r :: rest => (r.1, rest)
  enableReceiver := fun s =>
    match s with
    | [] => (HAL_TIMEOUT, [])
    | r :: rest => (r.1, rest)
  transmit := fun _ _ _ s =>
    match s with
    | [] => (HAL_TIMEOUT, [])
    | r :: rest => (r.1, rest)
  receive := fun _ _ s =>
    match s with
    | [] => (HAL_TIMEOUT, (0, 0), [])
    | r :: rest => (r.1, r.2, rest)

/-- The configuration set of the scenario of spec section 8. -/
def scenarioRegisters : PGA308_Registers_InitTypeDef :=
  { REG_ZDAC := 0x1234, REG_GDAC := 0x0010, REG_CFG0 := 0x00FF, REG_CFG1 := 0x0001,
    REG_CFG2 := 0x0080, REG_CHKS := 0, REG_CHSR := 0, REG_SFTC := 0, REG_OENC := 0,
    REG_ALMR := 0, REG_OTPS := 0 }

/-- A script entry for a call that succeeds (reply bytes irrelevant or zero). -/
def okCall : HAL_StatusTypeDef × Nat × Nat := (HAL_OK, 0, 0)

/-- A script for `scenarioRegisters`: the enable-transmitter call of the lock
write fails; every later call succeeds and every read answers the expected
value. -/
def failedLockWriteScript : List (HAL_StatusTypeDef × Nat × Nat) :=
  [(HAL_ERROR, 0, 0), okCall, okCall, okCall, (HAL_OK, 0x50, 0x00),
   okCall, okCall, okCall, okCall, okCall, (HAL_OK, 0x34, 0x12),
   okCall, okCall, okCall, okCall, okCall, (HAL_OK, 0x10, 0x00),
   okCall, okCall, okCall, okCall, okCall, (HAL_OK, 0xFF, 0x00),
   okCall, okCall, okCall, okCall, okCall, (HAL_OK, 0x01, 0x00),
   okCall, okCall, okCall, okCall, okCall, (HAL_OK, 0x80, 0x00)]

/-- A configuration set whose zero-offset value equals the lock constant. -/
def lockValuedRegisters : PGA308_Registers_InitTypeDef :=
  { REG_ZDAC := 0x0050, REG_GDAC := 0x0010, REG_CFG0 := 0x00FF, REG_CFG1 := 0x0001,
    REG_CFG2 := 0x0080, REG_CHKS := 0, REG_CHSR := 0, REG_SFTC := 0, REG_OENC := 0,
    REG_ALMR := 0, REG_OTPS := 0 }

/-- A script for `lockValuedRegisters`: the transmit of the lock write fails and
the receive of the zero-offset read times out; every other call succeeds and
every other read answers the expected value. -/
def failedWriteAndReadScript : List (HAL_StatusTypeDef × Nat × Nat) :=
  [okCall, (HAL_ERROR, 0, 0), okCall, okCall, okCall, (HAL_OK, 0x50, 0x00),
   okCall, okCall, okCall, okCall, okCall, (HAL_TIMEOUT, 0x00, 0x00),
   okCall, okCall, okCall, okCall, okCall, (HAL_OK, 0x10, 0x00),
   okCall, okCall, okCall, okCall, okCall, (HAL_OK, 0xFF, 0x00),
   okCall, okCall, okCall, okCall, okCall, (HAL_OK, 0x01, 0x00),
   okCall, okCall, okCall, okCall, okCall, (HAL_OK, 0x80, 0x00)]

/-- A script for `scenarioRegisters`: no call fails, the lock read answers
0x0050 and the read of the zero-offset register answers 0x0000. -/
def zeroOffsetMismatchScript : List (HAL_StatusTypeDef × Nat × Nat) :=
  [okCall, okCall, okCall, okCall, okCall, (HAL_OK, 0x50, 0x00),
   okCall, okCall, okCall, okCall, okCall, (HAL_OK, 0x00, 0x00)]

/-- The configuration set of `scenarioRegisters` with other values in the six
fields after REG_CFG2. -/
def scenarioRegistersVariant : PGA308_Registers_InitTypeDef :=
  { REG_ZDAC := 0x1234, REG_GDAC := 0x0010, REG_CFG0 := 0x00FF, REG_CFG1 := 0x0001,
    REG_CFG2 := 0x0080, REG_CHKS := 0xABCD, REG_CHSR := 0x0001, REG_SFTC := 0xFFFF,
    REG_OENC := 0x0002, REG_ALMR := 0x0003, REG_OTPS := 0x0004 }

/-- A script on which the lock write succeeds and the receive of the lock read
times out. -/
def failedLockReadScript : List (HAL_StatusTypeDef × Nat × Nat) :=
  [okCall, okCall, okCall, okCall, okCall, (HAL_TIMEOUT, 0x50, 0x00)]

/-! ## Arithmetic of the frame codec -/

theorem shift_add_eq_replyValue (b0 b1 : Nat) (h0 : b0 < 256) (h1 : b1 < 256) :
    ((b1 <<< 8) + b0) % 65536 = replyValue b0 b1 := by
  have e : (b1 <<< 8) + b0 = (b1 <<< 8) ||| b0 := by
    rw [Nat.shiftLeft_eq, Nat.mul_comm]
    exact Nat.mul_add_lt_is_or (by simpa using h0) b1
  have hlt : (b1 <<< 8) + b0 < 65536 := by
    rw [Nat.shiftLeft_eq]; omega
  unfold replyValue
  rw [Nat.mod_eq_of_lt hlt, e, Nat.or_comm]

theorem replyValue_payload (V : Nat) (hV : V < 65536) :
    replyValue ((V &&& 0xFF) % 256) ((V >>> 8) % 256) = V := by
  have hand : V &&& 0xFF = V % 256 := Nat.and_pow_two_sub_one_eq_mod V 8
  have hlo : (V &&& 0xFF) % 256 < 256 := Nat.mod_lt _ (by decide)
  have hhi : (V >>> 8) % 256 < 256 := Nat.mod_lt _ (by decide)
  rw [← shift_add_eq_replyValue _ _ hlo hhi, hand, Nat.shiftRight_eq_div_pow, Nat.shiftLeft_eq]
  omega

theorem replyValue_lt (b0 b1 : Nat) (h0 : b0 < 256) (h1 : b1 < 256) :
    replyValue b0 b1 < 65536 := by
  rw [← shift_add_eq_replyValue b0 b1 h0 h1]
  exact Nat.mod_lt _ (by decide)

/-! ## What one single-register operation records -/

/-- The three ways a single-register write can go: what it returns and what it
appends to the record in each. -/
theorem Write_cases {σ : Type} (hal : Transport σ) (h : PGA308_HW_InitTypeDef) (A V : Nat)
    (w : World σ) :
    (∃ st, st ≠ HAL_OK ∧ (hal.enableTransmitter w.uart).1 = st ∧
      (PGA308_SingleRegister_Write hal h A V w).1 = PGA_HAL_ERROR ∧
      (PGA308_SingleRegister_Write hal h A V w).2.log =
        w.log ++ [Event.call_Write A V, Event.EnableTransmitter st]) ∨
    (∃ st, st ≠ HAL_OK ∧ (hal.enableTransmitter w.uart).1 = HAL_OK ∧
      (PGA308_SingleRegister_Write hal h A V w).1 = PGA_HAL_ERROR ∧
      (PGA308_SingleRegister_Write hal h A V w).2.log =
        w.log ++ [Event.call_Write A V, Event.EnableTransmitter HAL_OK,
          Event.Transmit [0x55, A % 256, (V &&& 0xFF) % 256, (V >>> 8) % 256] 4
            h.USART_Timeout st]) ∨
    ((hal.enableTransmitter w.uart).1 = HAL_OK ∧
      (PGA308_SingleRegister_Write hal h A V w).1 = PGA_NO_ERROR ∧
      (PGA308_SingleRegister_Write hal h A V w).2.log =
        w.log ++ [Event.call_Write A V, Event.EnableTransmitter HAL_OK,
          Event.Transmit [0x55, A % 256, (V &&& 0xFF) % 256, (V >>> 8) % 256] 4
            h.USART_Timeout HAL_OK]) := by
  rcases h1 : hal.enableTransmitter w.uart with ⟨st1, s1⟩
  by_cases e1 : st1 = HAL_OK
  · subst e1
    rcases h2 : hal.transmit [0x55, A % 256, (V &&& 0xFF) % 256, (V >>> 8) % 256] 4
      h.USART_Timeout s1 with ⟨st2, s2⟩
    by_cases e2 : st2 = HAL_OK
    · subst e2
      right; right
      simp [PGA308_SingleRegister_Write, HAL_HalfDuplex_EnableTransmitter, HAL_UART_Transmit,
        PGA_SYNC, PGA_ACCESS_RAM, PGA_ACCESS_WRITE, h1, h2]
    · right; left
      refine ⟨st2, e2, ?_⟩
      simp [PGA308_SingleRegister_Write, HAL_HalfDuplex_EnableTransmitter, HAL_UART_Transmit,
        PGA_SYNC, PGA_ACCESS_RAM, PGA_ACCESS_WRITE, h1, h2, e2]
  · left
    refine ⟨st1, e1, ?_⟩
    simp [PGA308_SingleRegister_Write, HAL_HalfDuplex_EnableTransmitter, h1, e1]

/-- The five ways a single-register read can go: what it returns, what it leaves
in the output variable and what it appends to the record in each. -/
theorem Read_cases {σ : Type} (hal : Transport σ) (h : PGA308_HW_InitTypeDef) (A old : Nat)
    (w : World σ) :
    (∃ st, st ≠ HAL_OK ∧ (hal.enableTransmitter w.uart).1 = st ∧
      (PGA308_SingleRegister_Read hal h A old w).1 = PGA_HAL_ERROR ∧
      (PGA308_SingleRegister_Read hal h A old w).2.1 = old ∧
      (PGA308_SingleRegister_Read hal h A old w).2.2.log =
        w.log ++ [Event.call_Read A, Event.EnableTransmitter st]) ∨
    (∃ st, st ≠ HAL_OK ∧ (hal.enableTransmitter w.uart).1 = HAL_OK ∧
      (PGA308_SingleRegister_Read hal h A old w).1 = PGA_HAL_ERROR ∧
      (PGA308_SingleRegister_Read hal h A old w).2.1 = old ∧
      (PGA308_SingleRegister_Read hal h A old w).2.2.log =
        w.log ++ [Event.call_Read A, Event.EnableTransmitter HAL_OK,
          Event.Transmit [0x55, (0x80 ||| A) % 256] 2 h.USART_Timeout st]) ∨
    (∃ st, st ≠ HAL_OK ∧ (hal.enableTransmitter w.uart).1 = HAL_OK ∧
      (PGA308_SingleRegister_Read hal h A old w).1 = PGA_HAL_ERROR ∧
      (PGA308_SingleRegister_Read hal h A old w).2.1 = old ∧
      (PGA308_SingleRegister_Read hal h A old w).2.2.log =
        w.log ++ [Event.call_Read A, Event.EnableTransmitter HAL_OK,
          Event.Transmit [0x55, (0x80 ||| A) % 256] 2 h.USART_Timeout HAL_OK,
          Event.EnableReceiver st]) ∨
    (∃ st b0 b1, st ≠ HAL_OK ∧ (hal.enableTransmitter w.uart).1 = HAL_OK ∧
      (PGA308_SingleRegister_Read hal h A old w).1 = PGA_HAL_ERROR ∧
      (PGA308_SingleRegister_Read hal h A old w).2.1 = old ∧
      (PGA308_SingleRegister_Read hal h A old w).2.2.log =
        w.log ++ [Event.call_Read A, Event.EnableTransmitter HAL_OK,
          Event.Transmit [0x55, (0x80 ||| A) % 256] 2 h.USART_Timeout HAL_OK,
          Event.EnableReceiver HAL_OK, Event.Receive 2 h.USART_Timeout st b0 b1]) ∨
    (∃ b0 b1, b0 < 256 ∧ b1 < 256 ∧ (hal.enableTransmitter w.uart).1 = HAL_OK ∧
      (PGA308_SingleRegister_Read hal h A old w).1 = PGA_NO_ERROR ∧
      (PGA308_SingleRegister_Read hal h A old w).2.1 = ((b1 <<< 8) + b0) % 65536 ∧
      (PGA308_SingleRegister_Read hal h A old w).2.2.log =
        w.log ++ [Event.call_Read A, Event.EnableTransmitter HAL_OK,
          Event.Transmit [0x55, (0x80 ||| A) % 256] 2 h.USART_Timeout HAL_OK,
          Event.EnableReceiver HAL_OK, Event.Receive 2 h.USART_Timeout HAL_OK b0 b1]) := by
  rcases h1 : hal.enableTransmitter w.uart with ⟨st1, s1⟩
  by_cases e1 : st1 = HAL_OK
  swap
  · left
    refine ⟨st1, e1, ?_⟩
    simp [PGA308_SingleRegister_Read, HAL_HalfDuplex_EnableTransmitter, h1, e1]
  subst e1
  rcases h2 : hal.transmit [0x55, (0x80 ||| A) % 256] 2 h.USART_Timeout s1 with ⟨st2, s2⟩
  by_cases e2 : st2 = HAL_OK
  swap
  · right; left
    refine ⟨st2, e2, ?_⟩
    simp [PGA308_SingleRegister_Read, HAL_HalfDuplex_EnableTransmitter, HAL_UART_Transmit,
      PGA_SYNC, PGA_ACCESS_RAM, PGA_ACCESS_READ, h1, h2, e2]
  subst e2
  rcases h3 : hal.enableReceiver s2 with ⟨st3, s3⟩
  by_cases e3 : st3 = HAL_OK
  swap
  · right; right; left
    refine ⟨st3, e3, ?_⟩
    simp [PGA308_SingleRegister_Read, HAL_HalfDuplex_EnableTransmitter, HAL_UART_Transmit,
      HAL_HalfDuplex_EnableReceiver, PGA_SYNC, PGA_ACCESS_RAM, PGA_ACCESS_READ, h1, h2, h3, e3]
  subst e3
  rcases h4 : hal.receive 2 h.USART_Timeout s3 with ⟨st4, ⟨c0, c1⟩, s4⟩
  by_cases e4 : st4 = HAL_OK
  swap
  · right; right; right; left
    refine ⟨st4, c0 % 256, c1 % 256, e4, ?_⟩
    simp [PGA308_SingleRegister_Read, HAL_HalfDuplex_EnableTransmitter, HAL_UART_Transmit,
      HAL_HalfDuplex_EnableReceiver, HAL_UART_Receive, PGA_SYNC, PGA_ACCESS_RAM,
      PGA_ACCESS_READ, h1, h2, h3, h4, e4]
  subst e4
  right; right; right; right
  refine ⟨c0 % 256, c1 % 256, Nat.mod_lt _ (by decide), Nat.mod_lt _ (by decide), ?_⟩
  simp [PGA308_SingleRegister_Read, HAL_HalfDuplex_EnableTransmitter, HAL_UART_Transmit,
    HAL_HalfDuplex_EnableReceiver, HAL_UART_Receive, PGA_SYNC, PGA_ACCESS_RAM,
    PGA_ACCESS_READ, h1, h2, h3, h4]

theorem failureIsLast_split (t : List Event) (ht : failureIsLast t = true) :
    ∀ pre e post, t = pre ++ e :: post → e.failed = true → post = [] := by
  induction t with
  | nil => intro pre e post hsplit; simp at hsplit
  | cons x rest ih =>
    intro pre e post hsplit hf
    cases rest with
    | nil =>
      cases pre with
      | nil => simp at hsplit; exact hsplit.2
      | cons p pre2 => simp at hsplit
    | cons y rest2 =>
      simp only [failureIsLast, Bool.and_eq_true, Bool.not_eq_true'] at ht
      cases pre with
      | nil =>
        simp at hsplit
        rw [hsplit.1] at ht
        rw [ht.1] at hf
        cases hf
      | cons p pre2 =>
        simp only [List.cons_append, List.cons.injEq] at hsplit
        exact ih ht.2 pre2 e post hsplit.2 hf

theorem ops_append (t u : List Event) : ops (t ++ u) = ops t ++ ops u := by
  simp [ops, List.filterMap_append]

theorem ops_Write {σ : Type} (hal : Transport σ) (h : PGA308_HW_InitTypeDef) (A V : Nat)
    (w : World σ) :
    ops (PGA308_SingleRegister_Write hal h A V w).2.log = ops w.log ++ [Op.write A V] := by
  rcases Write_cases hal h A V w with ⟨st, -, -, -, hl⟩ | ⟨st, -, -, -, hl⟩ | ⟨-, -, hl⟩ <;>
    rw [hl, ops_append] <;> simp [ops, Event.op]

theorem ops_Read {σ : Type} (hal : Transport σ) (h : PGA308_HW_InitTypeDef) (A old : Nat)
    (w : World σ) :
    ops (PGA308_SingleRegister_Read hal h A old w).2.2.log = ops w.log ++ [Op.read A] := by
  rcases Read_cases hal h A old w with
    ⟨st, -, -, -, -, hl⟩ | ⟨st, -, -, -, -, hl⟩ | ⟨st, -, -, -, -, hl⟩ |
    ⟨st, b0, b1, -, -, -, -, hl⟩ | ⟨b0, b1, -, -, -, -, -, hl⟩ <;>
    rw [hl, ops_append] <;> simp [ops, Event.op]

theorem SingleRegister_read_no_error_iff {σ : Type} (hal : Transport σ)
    (h : PGA308_HW_InitTypeDef) (A old : Nat) (w : World σ) (hw : w.log = []) :
    (PGA308_SingleRegister_Read hal h A old w).1 = PGA_NO_ERROR ↔
      ∀ e ∈ (PGA308_SingleRegister_Read hal h A old w).2.2.log, e.failed = false := by
  rcases Read_cases hal h A old w with
    ⟨st, hst, -, hr, -, hl⟩ | ⟨st, hst, -, hr, -, hl⟩ | ⟨st, hst, -, hr, -, hl⟩ |
    ⟨st, b0, b1, hst, -, hr, -, hl⟩ | ⟨b0, b1, -, -, hst, hr, -, hl⟩ <;>
    rw [hw, List.nil_append] at hl <;> rw [hr, hl] <;> simp [Event.failed, hst]

/-! ## The configuration sequence as an iteration -/

theorem Enable_eq_runPairs {σ : Type} (hal : Transport σ) (h : PGA308_HW_InitTypeDef)
    (regs : PGA308_Registers_InitTypeDef) (w : World σ) :
    PGA308_Enable hal h regs w = runPairs hal h (Enable_sequence regs) 0 w := rfl

theorem Write_tail {σ : Type} (hal : Transport σ) (h : PGA308_HW_InitTypeDef) (A V : Nat)
    (w : World σ) :
    ∃ W, WriteTail A V h.USART_Timeout W ∧
      (PGA308_SingleRegister_Write hal h A V w).2.log = w.log ++ Event.call_Write A V :: W := by
  rcases Write_cases hal h A V w with ⟨st, hst, -, -, hl⟩ | ⟨st, -, -, -, hl⟩ | ⟨-, -, hl⟩
  · exact ⟨_, WriteTail.enableFailed st hst, hl⟩
  · exact ⟨_, WriteTail.transmitted st, hl⟩
  · exact ⟨_, WriteTail.transmitted HAL_OK, hl⟩

theorem Read_tail {σ : Type} (hal : Transport σ) (h : PGA308_HW_InitTypeDef) (A old : Nat)
    (w : World σ) :
    ∃ R, ReadTail A h.USART_Timeout old R (PGA308_SingleRegister_Read hal h A old w).2.1 ∧
      (PGA308_SingleRegister_Read hal h A old w).2.2.log = w.log ++ Event.call_Read A :: R := by
  rcases Read_cases hal h A old w with
    ⟨st, hst, -, -, ho, hl⟩ | ⟨st, hst, -, -, ho, hl⟩ | ⟨st, hst, -, -, ho, hl⟩ |
    ⟨st, b0, b1, hst, -, -, ho, hl⟩ | ⟨b0, b1, hb0, hb1, -, -, ho, hl⟩
  · rw [ho]; exact ⟨_, ReadTail.enableFailed st hst, hl⟩
  · rw [ho]; exact ⟨_, ReadTail.transmitFailed st hst, hl⟩
  · rw [ho]; exact ⟨_, ReadTail.receiverFailed st hst, hl⟩
  · rw [ho]; exact ⟨_, ReadTail.receiveFailed st b0 b1 hst, hl⟩
  · rw [ho, shift_add_eq_replyValue b0 b1 hb0 hb1]
    exact ⟨_, ReadTail.received b0 b1 hb0 hb1, hl⟩

/-- Every run of the iteration records one of the traces of `RunTrace`. -/
theorem runPairs_trace {σ : Type} (hal : Transport σ) (h : PGA308_HW_InitTypeDef) :
    ∀ (ps : List (Nat × Nat)) (ret : Nat) (w : World σ),
      ∃ T, (runPairs hal h ps ret w).2.log = w.log ++ T ∧
        RunTrace h.USART_Timeout ps ret T (runPairs hal h ps ret w).1 := by
  intro ps
  induction ps with
  | nil => intro ret w; exact ⟨[], by simp [runPairs], RunTrace.done ret⟩
  | cons p rest ih =>
    intro ret w
    obtain ⟨a, v⟩ := p
    obtain ⟨W, hW, hWl⟩ := Write_tail hal h a v w
    obtain ⟨R, hR, hRl⟩ := Read_tail hal h a ret (PGA308_SingleRegister_Write hal h a v w).2
    rw [hWl] at hRl
    by_cases hm : (PGA308_SingleRegister_Read hal h a ret
        (PGA308_SingleRegister_Write hal h a v w).2).2.1 = v
    · obtain ⟨T, hTl, hT⟩ := ih v (PGA308_SingleRegister_Read hal h a ret
        (PGA308_SingleRegister_Write hal h a v w).2).2.2
      rw [hm] at hR
      refine ⟨(Event.call_Write a v :: W ++ Event.call_Read a :: R) ++ T, ?_, ?_⟩
      · simp only [runPairs, hm, ne_eq, not_true_eq_false, if_false]
        rw [hTl, hRl]
        simp
      · simp only [runPairs, hm, ne_eq, not_true_eq_false, if_false]
        exact RunTrace.verified a v rest ret W R T _ hW hR hT
    · refine ⟨Event.call_Write a v :: W ++ Event.call_Read a :: R, ?_, ?_⟩
      · simp only [runPairs, hm, ne_eq, not_false_eq_true, if_true]
        rw [hRl]
        simp
      · simp only [runPairs, hm, ne_eq, not_false_eq_true, if_true]
        exact RunTrace.mismatch a v rest ret W R _ hW hR hm

/-- The record of `PGA308_Enable` from a fresh world is a trace of `RunTrace`. -/
theorem Enable_trace {σ : Type} (hal : Transport σ) (h : PGA308_HW_InitTypeDef)
    (regs : PGA308_Registers_InitTypeDef) (s : σ) :
    RunTrace h.USART_Timeout (Enable_sequence regs) 0
      (PGA308_Enable hal h regs (World.start s)).2.log
      (PGA308_Enable hal h regs (World.start s)).1 := by
  obtain ⟨T, hl, hT⟩ := runPairs_trace hal h (Enable_sequence regs) 0 (World.start s)
  rw [Enable_eq_runPairs, hl]
  simpa [World.start] using hT

theorem ops_pair (a v tmo ret out : Nat) (W R : List Event) (hW : WriteTail a v tmo W)
    (hR : ReadTail a tmo ret R out) :
    ops (Event.call_Write a v :: W ++ Event.call_Read a :: R) = [Op.write a v, Op.read a] := by
  cases hW <;> cases hR <;> simp [ops, Event.op]

theorem readBacksFrom_hal_failed (mem : Nat → Option Nat) (cur : Option Nat) (size tmo : Nat)
    (st : HAL_StatusTypeDef) (hst : st ≠ HAL_OK) (b0 b1 : Nat) (T : List Event) :
    readBacksFrom mem cur (Event.Receive size tmo st b0 b1 :: T) = readBacksFrom mem cur T := by
  cases st
  · exact absurd rfl hst
  all_goals simp [readBacksFrom]

/-- The read-back verdicts of one write+read pair followed by a record `T`:
either the read failed, left the output variable alone and contributed no
verdict, or it succeeded and contributed the comparison of the value written
with the value received, which is also the content of the output variable. -/
theorem readBacksFrom_pair (a v tmo ret out : Nat) (W R : List Event)
    (hW : WriteTail a v tmo W) (hR : ReadTail a tmo ret R out) :
    (out = ret ∧ (∃ e ∈ R, e.failed = true) ∧ ∀ mem cur T,
      readBacksFrom mem cur ((Event.call_Write a v :: W ++ Event.call_Read a :: R) ++ T) =
        readBacksFrom (remember mem a v) (some a) T) ∨
    ((∀ e ∈ R, e.failed = false) ∧ ∀ mem cur T,
      readBacksFrom mem cur ((Event.call_Write a v :: W ++ Event.call_Read a :: R) ++ T) =
        decide (v = out) :: readBacksFrom (remember mem a v) (some a) T) := by
  cases hR with
  | enableFailed st hst =>
    left
    refine ⟨rfl, ⟨_, List.mem_singleton.2 rfl, by simp [Event.failed, hst]⟩, ?_⟩
    intro mem cur T
    cases hW <;> simp [readBacksFrom]
  | transmitFailed st hst =>
    left
    refine ⟨rfl, ⟨Event.Transmit [0x55, (0x80 ||| a) % 256] 2 tmo st, by simp,
      by simp [Event.failed, hst]⟩, ?_⟩
    intro mem cur T
    cases hW <;> simp [readBacksFrom]
  | receiverFailed st hst =>
    left
    refine ⟨rfl, ⟨Event.EnableReceiver st, by simp, by simp [Event.failed, hst]⟩, ?_⟩
    intro mem cur T
    cases hW <;> simp [readBacksFrom]
  | receiveFailed st b0 b1 hst =>
    left
    refine ⟨rfl, ⟨Event.Receive 2 tmo st b0 b1, by simp, by simp [Event.failed, hst]⟩, ?_⟩
    intro mem cur T
    cases hW <;> simp [readBacksFrom, readBacksFrom_hal_failed _ _ _ _ st hst]
  | received b0 b1 h0 h1 =>
    right
    refine ⟨by simp [Event.failed], ?_⟩
    intro mem cur T
    cases hW <;> simp [readBacksFrom, remember]

theorem pair_failed_iff (a v : Nat) (W R T : List Event) :
    (∀ e ∈ (Event.call_Write a v :: W ++ Event.call_Read a :: R) ++ T, e.failed = false) ↔
      (∀ e ∈ W, e.failed = false) ∧ (∀ e ∈ R, e.failed = false) ∧
        (∀ e ∈ T, e.failed = false) := by
  simp only [List.mem_append, List.mem_cons]
  constructor
  · intro hall
    exact ⟨fun e he => hall e (Or.inl (Or.inl (Or.inr he))),
      fun e he => hall e (Or.inl (Or.inr (Or.inr he))), fun e he => hall e (Or.inr he)⟩
  · rintro ⟨hW, hR, hT⟩ e (((rfl | he) | (rfl | he)) | he)
    · rfl
    · exact hW e he
    · rfl
    · exact hR e he
    · exact hT e he

/-- With no failed transport call and every read-back equal to the value
written, the iteration verifies every pair and reports success. -/
theorem RunTrace_echo (tmo : Nat) (ps : List (Nat × Nat)) (ret : Nat) (T : List Event)
    (res : PGA308_Error_TypeDef) (hrun : RunTrace tmo ps ret T res) :
    (∀ e ∈ T, e.failed = false) → ∀ mem cur, (∀ b ∈ readBacksFrom mem cur T, b = true) →
      res = PGA_NO_ERROR ∧ ops T = pairOps ps := by
  induction hrun with
  | done ret => intro _ _ _ _; exact ⟨rfl, rfl⟩
  | mismatch a v rest ret W R out hW hR hne =>
    intro hok mem cur hrb
    exfalso
    have hok2 := (pair_failed_iff a v W R []).1 (by simpa using hok)
    rcases readBacksFrom_pair a v tmo ret out W R hW hR with ⟨-, ⟨e, he, hf⟩, -⟩ | ⟨-, hstep⟩
    · rw [hok2.2.1 e he] at hf; cases hf
    · have h1 := hstep mem cur []
      rw [List.append_nil] at h1
      rw [h1] at hrb
      have h2 := hrb (decide (v = out)) (List.mem_cons_self _ _)
      exact hne (of_decide_eq_true h2).symm
  | verified a v rest ret W R T res hW hR hT ih =>
    intro hok mem cur hrb
    have hok2 := (pair_failed_iff a v W R T).1 hok
    rw [ops_append, ops_pair a v tmo ret v W R hW hR]
    rcases readBacksFrom_pair a v tmo ret v W R hW hR with ⟨-, ⟨e, he, hf⟩, -⟩ | ⟨-, hstep⟩
    · rw [hok2.2.1 e he] at hf; cases hf
    · rw [hstep mem cur T] at hrb
      have h3 := ih hok2.2.2 (remember mem a v) (some a)
        (fun b hb => hrb b (List.mem_cons_of_mem _ hb))
      exact ⟨h3.1, by rw [h3.2]; rfl⟩

theorem pairOps_take (ps : List (Nat × Nat)) :
    ∀ k, pairOps (ps.take k) = (pairOps ps).take (2 * k) := by
  induction ps with
  | nil => intro k; simp [pairOps]
  | cons p rest ih =>
    intro k
    obtain ⟨a, v⟩ := p
    cases k with
    | zero => simp [pairOps]
    | succ k =>
      have e : 2 * (k + 1) = 2 * k + 1 + 1 := by omega
      rw [e]
      simp [pairOps, ih k]

/-- With no failed transport call, a read-back that differs from the value
written ends the iteration right there with the mismatch outcome. -/
theorem RunTrace_mismatch_at (tmo : Nat) (ps : List (Nat × Nat)) (ret : Nat) (T : List Event)
    (res : PGA308_Error_TypeDef) (hrun : RunTrace tmo ps ret T res) :
    (∀ e ∈ T, e.failed = false) → ∀ j mem cur, (readBacksFrom mem cur T)[j]? = some false →
      res = PGA_INV_REG_DATA_READ ∧ ops T = pairOps (ps.take (j + 1)) := by
  induction hrun with
  | done ret =>
    intro _ j mem cur hj
    simp [readBacksFrom] at hj
  | mismatch a v rest ret W R out hW hR hne =>
    intro hok j mem cur hj
    have hok2 := (pair_failed_iff a v W R []).1 (by simpa using hok)
    rcases readBacksFrom_pair a v tmo ret out W R hW hR with ⟨-, ⟨e, he, hf⟩, -⟩ | ⟨-, hstep⟩
    · rw [hok2.2.1 e he] at hf; cases hf
    · have h1 := hstep mem cur []
      rw [List.append_nil] at h1
      rw [h1] at hj
      cases j with
      | zero =>
        refine ⟨rfl, ?_⟩
        rw [ops_pair a v tmo ret out W R hW hR]
        simp [pairOps]
      | succ j => simp [readBacksFrom] at hj
  | verified a v rest ret W R T res hW hR hT ih =>
    intro hok j mem cur hj
    have hok2 := (pair_failed_iff a v W R T).1 hok
    rcases readBacksFrom_pair a v tmo ret v W R hW hR with ⟨-, ⟨e, he, hf⟩, -⟩ | ⟨-, hstep⟩
    · rw [hok2.2.1 e he] at hf; cases hf
    · rw [hstep mem cur T] at hj
      cases j with
      | zero => simp at hj
      | succ j =>
        simp only [List.getElem?_cons_succ] at hj
        have h3 := ih hok2.2.2 j (remember mem a v) (some a) hj
        refine ⟨h3.1, ?_⟩
        rw [ops_append, ops_pair a v tmo ret v W R hW hR, h3.2]
        simp [pairOps]

/-- A run that reports success verified every pair, and every value it
actually received equalled the value written. -/
theorem RunTrace_no_error (tmo : Nat) (ps : List (Nat × Nat)) (ret : Nat) (T : List Event)
    (res : PGA308_Error_TypeDef) (hrun : RunTrace tmo ps ret T res) :
    res = PGA_NO_ERROR →
      ops T = pairOps ps ∧ ∀ mem cur, ∀ b ∈ readBacksFrom mem cur T, b = true := by
  induction hrun with
  | done ret => intro _; exact ⟨rfl, by intro mem cur b hb; simp [readBacksFrom] at hb⟩
  | mismatch a v rest ret W R out hW hR hne => intro hres; cases hres
  | verified a v rest ret W R T res hW hR hT ih =>
    intro hres
    obtain ⟨hops, hrb⟩ := ih hres
    refine ⟨by rw [ops_append, ops_pair a v tmo ret v W R hW hR, hops]; rfl, ?_⟩
    intro mem cur b hb
    rcases readBacksFrom_pair a v tmo ret v W R hW hR with ⟨-, -, hstep⟩ | ⟨-, hstep⟩
    · rw [hstep mem cur T] at hb
      exact hrb _ _ b hb
    · rw [hstep mem cur T] at hb
      rcases List.mem_cons.1 hb with rfl | hb2
      · simp
      · exact hrb _ _ b hb2

theorem RunTrace_outcome (tmo : Nat) (ps : List (Nat × Nat)) (ret : Nat) (T : List Event)
    (res : PGA308_Error_TypeDef) (hrun : RunTrace tmo ps ret T res) :
    res = PGA_INV_REG_DATA_READ ∨ res = PGA_NO_ERROR := by
  induction hrun with
  | done ret => exact Or.inr rfl
  | mismatch a v rest ret W R out hW hR hne => exact Or.inl rfl
  | verified a v rest ret W R T res hW hR hT ih => exact ih

theorem failureEndsOperation_split (t : List Event) (ht : failureEndsOperation t = true) :
    ∀ pre e e2 post, t = pre ++ e :: e2 :: post → e.failed = true → e2.isHal = false := by
  induction t with
  | nil => intro pre e e2 post hsplit; simp at hsplit
  | cons x rest ih =>
    intro pre e e2 post hsplit hf
    cases rest with
    | nil =>
      cases pre with
      | nil => simp at hsplit
      | cons p pre2 => simp at hsplit
    | cons y rest2 =>
      simp only [failureEndsOperation, Bool.and_eq_true, Bool.or_eq_true,
        Bool.not_eq_true'] at ht
      cases pre with
      | nil =>
        simp only [List.nil_append, List.cons.injEq] at hsplit
        obtain ⟨rfl, rfl, -⟩ := hsplit
        rcases ht.1 with h1 | h1
        · rw [h1] at hf; cases hf
        · exact h1
      | cons p pre2 =>
        simp only [List.cons_append, List.cons.injEq] at hsplit
        exact ih ht.2 pre2 e e2 post hsplit.2 hf

theorem failureEndsOperation_append (A B : List Event) (hA : failureEndsOperation A = true)
    (hB : failureEndsOperation B = true) (hhead : ∀ b ∈ B.head?, b.isHal = false) :
    failureEndsOperation (A ++ B) = true := by
  induction A with
  | nil => simpa using hB
  | cons x rest ih =>
    cases rest with
    | nil =>
      cases B with
      | nil => rfl
      | cons b B2 =>
        have hb : b.isHal = false := hhead b (by simp)
        simp [failureEndsOperation, hb, hB]
    | cons y rest2 =>
      simp only [failureEndsOperation, Bool.and_eq_true] at hA
      simp only [List.cons_append, failureEndsOperation, Bool.and_eq_true]
      exact ⟨hA.1, by simpa using ih hA.2⟩

theorem failureEndsOperation_pair (a v tmo ret out : Nat) (W R : List Event)
    (hW : WriteTail a v tmo W) (hR : ReadTail a tmo ret R out) :
    failureEndsOperation (Event.call_Write a v :: W ++ Event.call_Read a :: R) = true := by
  cases hW <;> cases hR <;> simp [failureEndsOperation, Event.failed, Event.isHal]

theorem RunTrace_head (tmo : Nat) (ps : List (Nat × Nat)) (ret : Nat) (T : List Event)
    (res : PGA308_Error_TypeDef) (hrun : RunTrace tmo ps ret T res) :
    ∀ b ∈ T.head?, b.isHal = false := by
  cases hrun with
  | done => intro b hb; simp at hb
  | mismatch a v rest W R out hW hR hne =>
    intro b hb
    simp at hb
    rw [← hb]; rfl
  | verified a v rest W R T res hW hR hT =>
    intro b hb
    simp at hb
    rw [← hb]; rfl

/-- In every run a failed transport call is the last call of its operation. -/
theorem RunTrace_failureEndsOperation (tmo : Nat) (ps : List (Nat × Nat)) (ret : Nat)
    (T : List Event) (res : PGA308_Error_TypeDef) (hrun : RunTrace tmo ps ret T res) :
    failureEndsOperation T = true := by
  induction hrun with
  | done ret => rfl
  | mismatch a v rest ret W R out hW hR hne =>
    exact failureEndsOperation_pair a v tmo ret out W R hW hR
  | verified a v rest ret W R T res hW hR hT ih =>
    exact failureEndsOperation_append _ _ (failureEndsOperation_pair a v tmo ret v W R hW hR)
      ih (RunTrace_head tmo rest v T res hT)

/-! ## Reads and their outcomes in a record -/

theorem segment_append (L X : List Event) (hX : ∀ b ∈ X.head?, b.isHal = false) :
    segment (L ++ X) = segment L := by
  induction L with
  | nil =>
    cases X with
    | nil => rfl
    | cons b X2 =>
      have hb : b.isHal = false := hX b (by simp)
      simp [segment, hb]
  | cons e t ih =>
    by_cases he : e.isHal = true
    · simp [segment, he, ih]
    · simp [segment, he]

theorem readSegments_append (L X : List Event) (hX : ∀ b ∈ X.head?, b.isHal = false) :
    readSegments (L ++ X) = readSegments L ++ readSegments X := by
  induction L with
  | nil => rfl
  | cons e t ih =>
    cases e <;> simp [readSegments, ih, segment_append t X hX]

theorem segment_of_hal (R : List Event) (hR : ∀ e ∈ R, e.isHal = true) : segment R = R := by
  induction R with
  | nil => rfl
  | cons e t ih =>
    have he : e.isHal = true := hR e (List.mem_cons_self _ _)
    simp [segment, he, ih (fun x hx => hR x (List.mem_cons_of_mem _ hx))]

theorem readSegments_of_hal (R : List Event) (hR : ∀ e ∈ R, e.isHal = true) :
    readSegments R = [] := by
  induction R with
  | nil => rfl
  | cons e t ih =>
    have he : e.isHal = true := hR e (List.mem_cons_self _ _)
    have ht := ih (fun x hx => hR x (List.mem_cons_of_mem _ hx))
    cases e <;> first | (simp [readSegments, ht]; done) | simp [Event.isHal] at he

theorem readOutcomes_append (L X : List Event) (hX : ∀ b ∈ X.head?, b.isHal = false) :
    readOutcomes (L ++ X) = readOutcomes L ++ readOutcomes X := by
  simp [readOutcomes, readSegments_append L X hX]

theorem readOutcomes_read (a : Nat) (R : List Event) (hR : ∀ e ∈ R, e.isHal = true) :
    readOutcomes (Event.call_Read a :: R) = [(a, R.any Event.failed, received R)] := by
  simp [readOutcomes, readSegments, segment_of_hal R hR, readSegments_of_hal R hR]

theorem readOutcomes_write (a v : Nat) (W : List Event) (hW : ∀ e ∈ W, e.isHal = true) :
    readOutcomes (Event.call_Write a v :: W) = [] := by
  simp [readOutcomes, readSegments, readSegments_of_hal W hW]

theorem WriteTail_isHal (a v tmo : Nat) (W : List Event) (hW : WriteTail a v tmo W) :
    ∀ e ∈ W, e.isHal = true := by
  cases hW <;> simp [Event.isHal]

theorem ReadTail_isHal (a tmo old out : Nat) (R : List Event) (hR : ReadTail a tmo old R out) :
    ∀ e ∈ R, e.isHal = true := by
  cases hR <;> simp [Event.isHal]

theorem received_hal_failed (size tmo : Nat) (st : HAL_StatusTypeDef) (hst : st ≠ HAL_OK)
    (b0 b1 : Nat) (T : List Event) :
    received (Event.Receive size tmo st b0 b1 :: T) = received T := by
  cases st
  · exact absurd rfl hst
  all_goals simp [received]

/-- A failed read received nothing and left the output variable alone; a read
that did not fail received exactly what it stored. -/
theorem ReadTail_effect (a tmo old out : Nat) (R : List Event) (hR : ReadTail a tmo old R out) :
    FieldEffect old out (R.any Event.failed, received R) := by
  cases hR with
  | enableFailed st hst => left; simp [Event.failed, received, hst]
  | transmitFailed st hst => left; simp [Event.failed, received, hst]
  | receiverFailed st hst => left; simp [Event.failed, received, hst]
  | receiveFailed st b0 b1 hst =>
    left; simp [Event.failed, received, received_hal_failed _ _ st hst, hst]
  | received b0 b1 h0 h1 => right; simp [Event.failed, received]

theorem readOutcomes_Read {σ : Type} (hal : Transport σ) (h : PGA308_HW_InitTypeDef)
    (A old : Nat) (w : World σ) :
    ∃ o, FieldEffect old (PGA308_SingleRegister_Read hal h A old w).2.1 o ∧
      readOutcomes (PGA308_SingleRegister_Read hal h A old w).2.2.log =
        readOutcomes w.log ++ [(A, o)] := by
  obtain ⟨R, hR, hl⟩ := Read_tail hal h A old w
  refine ⟨(R.any Event.failed, received R), ReadTail_effect _ _ _ _ R hR, ?_⟩
  rw [hl, readOutcomes_append _ _ (by intro b hb; simp at hb; rw [← hb]; rfl),
    readOutcomes_read A R (ReadTail_isHal _ _ _ _ R hR)]

/-! ## The order of the operations of a run -/

theorem RunTrace_ops (tmo : Nat) (ps : List (Nat × Nat)) (ret : Nat) (T : List Event)
    (res : PGA308_Error_TypeDef) (hrun : RunTrace tmo ps ret T res) :
    ∃ k, k ≤ ps.length ∧ (ps ≠ [] → 1 ≤ k) ∧ ops T = pairOps (ps.take k) := by
  induction hrun with
  | done ret => exact ⟨0, Nat.le_refl _, fun hne => absurd rfl hne, rfl⟩
  | mismatch a v rest ret W R out hW hR hne =>
    refine ⟨1, by simp, fun _ => Nat.le_refl _, ?_⟩
    rw [ops_pair a v tmo ret out W R hW hR]
    simp [pairOps]
  | verified a v rest ret W R T res hW hR hT ih =>
    obtain ⟨k, hk, -, hops⟩ := ih
    refine ⟨k + 1, by simpa using hk, fun _ => by omega, ?_⟩
    rw [ops_append, ops_pair a v tmo ret v W R hW hR, hops]
    simp [pairOps]

theorem writeReadPaired_pairOps (ps : List (Nat × Nat)) :
    writeReadPaired (pairOps ps) = true := by
  induction ps with
  | nil => rfl
  | cons p rest ih =>
    obtain ⟨a, v⟩ := p
    simp [pairOps, writeReadPaired, ih]

theorem writeReadPaired_split :
    ∀ (n : Nat) (l : List Op), l.length ≤ n → writeReadPaired l = true →
      ∀ pre a v post, l = pre ++ Op.write a v :: post → ∃ post2, post = Op.read a :: post2 := by
  intro n
  induction n with
  | zero =>
    intro l hlen _ pre a v post hsplit
    have : l = [] := List.length_eq_zero.1 (Nat.le_zero.1 hlen)
    rw [this] at hsplit
    simp at hsplit
  | succ n ih =>
    intro l hlen hpaired pre a v post hsplit
    rcases l with _ | ⟨x, _ | ⟨y, rest⟩⟩
    · simp at hsplit
    · cases x <;> simp [writeReadPaired] at hpaired
    · cases x with
      | read a1 => simp [writeReadPaired] at hpaired
      | write a1 v1 =>
        cases y with
        | write b1 u1 => simp [writeReadPaired] at hpaired
        | read b1 =>
          simp only [writeReadPaired, Bool.and_eq_true, decide_eq_true_eq] at hpaired
          cases pre with
          | nil =>
            simp only [List.nil_append, List.cons.injEq, Op.write.injEq] at hsplit
            obtain ⟨⟨rfl, rfl⟩, rfl⟩ := hsplit
            exact ⟨rest, by rw [hpaired.1]⟩
          | cons p1 pre1 =>
            cases pre1 with
            | nil => simp at hsplit
            | cons p2 pre2 =>
              simp only [List.cons_append, List.cons.injEq] at hsplit
              have hlen2 : rest.length ≤ n := by
                simp only [List.length_cons] at hlen
                omega
              exact ih rest hlen2 hpaired.2 pre2 a v post hsplit.2.2

/-- Whatever the world it starts from, the iteration ends with success or with
the mismatch outcome. -/
theorem runPairs_outcome {σ : Type} (hal : Transport σ) (h : PGA308_HW_InitTypeDef)
    (ps : List (Nat × Nat)) (ret : Nat) (w : World σ) :
    (runPairs hal h ps ret w).1 = PGA_INV_REG_DATA_READ ∨
      (runPairs hal h ps ret w).1 = PGA_NO_ERROR := by
  obtain ⟨T, -, hT⟩ := runPairs_trace hal h ps ret w
  exact RunTrace_outcome _ _ _ _ _ hT

/-! ## The reads of a run of the iteration -/

theorem readOutcomes_pair (a v tmo ret out : Nat) (W R T : List Event)
    (hW : WriteTail a v tmo W) (hR : ReadTail a tmo ret R out)
    (hT : ∀ b ∈ T.head?, b.isHal = false) :
    readOutcomes ((Event.call_Write a v :: W ++ Event.call_Read a :: R) ++ T) =
      (a, R.any Event.failed, received R) :: readOutcomes T := by
  have e : (Event.call_Write a v :: W ++ Event.call_Read a :: R) ++ T =
      (Event.call_Write a v :: W) ++ ((Event.call_Read a :: R) ++ T) := by simp
  rw [e, readOutcomes_append _ _ (by intro b hb; simp at hb; rw [← hb]; rfl),
    readOutcomes_append _ _ hT, readOutcomes_write a v W (WriteTail_isHal _ _ _ W hW),
    readOutcomes_read a R (ReadTail_isHal _ _ _ _ R hR)]
  rfl

/-- When every expected value differs from the one before it (and the first from
the initial content of the read-back variable), a run that reports success had
every one of its reads succeed and receive the expected value. -/
theorem RunTrace_all_reads (tmo : Nat) (ps : List (Nat × Nat)) (ret : Nat) (T : List Event)
    (res : PGA308_Error_TypeDef) (hrun : RunTrace tmo ps ret T res) :
    res = PGA_NO_ERROR → List.Chain (fun x y => x ≠ y) ret (ps.map Prod.snd) →
      readOutcomes T = ps.map (fun p => (p.1, false, some p.2)) := by
  induction hrun with
  | done ret => intro _ _; rfl
  | mismatch a v rest ret W R out hW hR hne => intro hres; cases hres
  | verified a v rest ret W R T res hW hR hT ih =>
    intro hres hchain
    simp only [List.map_cons, List.chain_cons] at hchain
    rw [readOutcomes_pair a v tmo ret v W R T hW hR (RunTrace_head tmo rest v T res hT),
      ih hres hchain.2]
    rcases ReadTail_effect a tmo ret v R hR with ⟨-, hstale⟩ | ho
    · exact absurd hstale.symm hchain.1
    · simp only [Prod.mk.injEq] at ho
      simp [ho.1, ho.2]

/-- When the first expected value differs from the initial content of the
read-back variable, a failed first read ends the run with the mismatch outcome
after the first pair. -/
theorem RunTrace_first_read_failed (tmo a v : Nat) (rest : List (Nat × Nat)) (ret : Nat)
    (T : List Event) (res : PGA308_Error_TypeDef)
    (hrun : RunTrace tmo ((a, v) :: rest) ret T res) (hne : ret ≠ v)
    (hfail : ∃ r, (readOutcomes T).head? = some (a, true, r)) :
    res = PGA_INV_REG_DATA_READ ∧ ops T = [Op.write a v, Op.read a] := by
  cases hrun with
  | mismatch _ _ _ _ W R out hW hR hne2 => exact ⟨rfl, ops_pair a v tmo ret out W R hW hR⟩
  | verified _ _ _ _ W R T2 _ hW hR hT =>
    exfalso
    obtain ⟨r, hr⟩ := hfail
    rw [readOutcomes_pair a v tmo ret v W R T2 hW hR (RunTrace_head tmo rest v T2 res hT)] at hr
    simp only [List.head?_cons, Option.some.injEq, Prod.mk.injEq, true_and] at hr
    rcases ReadTail_effect a tmo ret v R hR with ⟨-, hstale⟩ | ho
    · exact hne hstale.symm
    · simp only [Prod.mk.injEq] at ho
      rw [hr.1] at ho
      exact absurd ho.1 (by decide)

theorem RunTrace_first (tmo a v : Nat) (rest : List (Nat × Nat)) (ret : Nat)
    (T : List Event) (res : PGA308_Error_TypeDef)
    (hrun : RunTrace tmo ((a, v) :: rest) ret T res) :
    ∃ T2, T = Event.call_Write a v :: T2 := by
  cases hrun with
  | mismatch _ _ _ _ W R out hW hR hne2 => exact ⟨_, rfl⟩
  | verified _ _ _ _ W R T2 _ hW hR hT => exact ⟨_, rfl⟩

/-! ## Single-register operations -/

/-- C5: a single-register write or read that records a failed transport call
returns `PGA_HAL_ERROR`, and the failed call is the last thing it does; a write
whose enable-transmitter call failed hands no frame to the transport; and the
operation returns `PGA_NO_ERROR` exactly when none of its transport calls
failed. -/
theorem SingleRegister_transport_failure {σ : Type} (hal : Transport σ)
    (h : PGA308_HW_InitTypeDef) (A V old : Nat) (s : σ) :
    let wr := PGA308_SingleRegister_Write hal h A V (World.start s)
    let rd := PGA308_SingleRegister_Read hal h A old (World.start s)
    (((∃ e ∈ wr.2.log, e.failed = true) → wr.1 = PGA_HAL_ERROR) ∧
     (∀ pre e post, wr.2.log = pre ++ e :: post → e.failed = true → post = []) ∧
     (∀ st, st ≠ HAL_OK → Event.EnableTransmitter st ∈ wr.2.log → frames wr.2.log = []) ∧
     (wr.1 = PGA_NO_ERROR ↔ ∀ e ∈ wr.2.log, e.failed = false)) ∧
    (((∃ e ∈ rd.2.2.log, e.failed = true) → rd.1 = PGA_HAL_ERROR) ∧
     (∀ pre e post, rd.2.2.log = pre ++ e :: post → e.failed = true → post = []) ∧
     (rd.1 = PGA_NO_ERROR ↔ ∀ e ∈ rd.2.2.log, e.failed = false)) := by
  dsimp only
  have h0 : (World.start s).log = [] := rfl
  constructor
  · rcases Write_cases hal h A V (World.start s) with
      ⟨st, hst, -, hr, hl⟩ | ⟨st, hst, -, hr, hl⟩ | ⟨-, hr, hl⟩
    all_goals
      rw [h0, List.nil_append] at hl
      refine ⟨?_, ?_, ?_, ?_⟩
    · intro _; exact hr
    · apply failureIsLast_split; rw [hl]; simp [failureIsLast, Event.failed]
    · intro st2 h2 hmem; rw [hl]; simp [frames]
    · rw [hr, hl]; simp [Event.failed, hst]
    · intro _; exact hr
    · apply failureIsLast_split; rw [hl]; simp [failureIsLast, Event.failed]
    · intro st2 h2 hmem
      rw [hl] at hmem
      simp at hmem
      exact absurd hmem h2
    · rw [hr, hl]; simp [Event.failed, hst]
    · intro ⟨e, he, hf⟩
      rw [hl] at he
      simp at he
      rcases he with rfl | rfl | rfl <;> simp [Event.failed] at hf
    · apply failureIsLast_split; rw [hl]; simp [failureIsLast, Event.failed]
    · intro st2 h2 hmem
      rw [hl] at hmem
      simp at hmem
      exact absurd hmem h2
    · rw [hr, hl]; simp [Event.failed]
  · rcases Read_cases hal h A old (World.start s) with
      ⟨st, hst, -, hr, -, hl⟩ | ⟨st, hst, -, hr, -, hl⟩ | ⟨st, hst, -, hr, -, hl⟩ |
      ⟨st, b0, b1, hst, -, hr, -, hl⟩ | ⟨b0, b1, -, -, -, hr, -, hl⟩
    all_goals
      rw [h0, List.nil_append] at hl
      refine ⟨?_, ?_, ?_⟩
    · intro _; exact hr
    · apply failureIsLast_split; rw [hl]; simp [failureIsLast, Event.failed]
    · rw [hr, hl]; simp [Event.failed, hst]
    · intro _; exact hr
    · apply failureIsLast_split; rw [hl]; simp [failureIsLast, Event.failed]
    · rw [hr, hl]; simp [Event.failed, hst]
    · intro _; exact hr
    · apply failureIsLast_split; rw [hl]; simp [failureIsLast, Event.failed]
    · rw [hr, hl]; simp [Event.failed, hst]
    · intro _; exact hr
    · apply failureIsLast_split; rw [hl]; simp [failureIsLast, Event.failed]
    · rw [hr, hl]; simp [Event.failed, hst]
    · intro ⟨e, he, hf⟩
      rw [hl] at he
      simp at he
      rcases he with rfl | rfl | rfl | rfl | rfl <;> simp [Event.failed] at hf
    · apply failureIsLast_split; rw [hl]; simp [failureIsLast, Event.failed]
    · rw [hr, hl]; simp [Event.failed]

/-- C6: for a register address `A` in 0..10 and a 16-bit value `V`, the only
frame a single-register write hands to the transport is the four bytes
`[0x55, A, V & 0xFF, V >> 8]`, sent with size 4; it hands over exactly this one
frame unless the enable-transmitter call failed, in which case it hands over
none. -/
theorem Write_frame {σ : Type} (hal : Transport σ) (h : PGA308_HW_InitTypeDef) (A V : Nat)
    (s : σ) (hA : A ≤ 10) (hV : V < 65536) :
    (∀ pData size timeout st,
      Event.Transmit pData size timeout st ∈
          (PGA308_SingleRegister_Write hal h A V (World.start s)).2.log →
        pData = [0x55, A, V &&& 0xFF, V >>> 8] ∧ size = 4) ∧
    (frames (PGA308_SingleRegister_Write hal h A V (World.start s)).2.log =
        [[0x55, A, V &&& 0xFF, V >>> 8]] ∨
     (frames (PGA308_SingleRegister_Write hal h A V (World.start s)).2.log = [] ∧
        (hal.enableTransmitter s).1 ≠ HAL_OK)) := by
  have h0 : (World.start s).log = [] := rfl
  have hu : (World.start s).uart = s := rfl
  have e1 : A % 256 = A := Nat.mod_eq_of_lt (by omega)
  have e2 : (V &&& 0xFF) % 256 = V &&& 0xFF :=
    Nat.mod_eq_of_lt (Nat.lt_of_le_of_lt Nat.and_le_right (by decide))
  have e3 : (V >>> 8) % 256 = V >>> 8 := by
    rw [Nat.shiftRight_eq_div_pow]; omega
  rcases Write_cases hal h A V (World.start s) with
    ⟨st, hst, hen, -, hl⟩ | ⟨st, -, -, -, hl⟩ | ⟨-, -, hl⟩
  all_goals simp only [h0, List.nil_append, e1, e2, e3] at hl
  · rw [hu] at hen
    rw [hl]
    refine ⟨by simp, Or.inr ⟨by simp [frames], ?_⟩⟩
    rw [hen]; exact hst
  all_goals
    rw [hl]
    refine ⟨?_, Or.inl (by simp [frames])⟩
    intro pData size timeout st2 hmem
    simp only [List.mem_cons, List.mem_singleton, List.not_mem_nil, Event.Transmit.injEq,
      reduceCtorEq, false_or, or_false] at hmem
    exact ⟨hmem.1, hmem.2.1⟩

/-- Witness for C6: the lock write, address 0x07 and value 0x0050. -/
theorem Write_frame_witness :
    (7 ≤ 10 ∧ 0x0050 < 65536) ∧
    ((∀ pData size timeout st,
      Event.Transmit pData size timeout st ∈
          (PGA308_SingleRegister_Write echoTransport ⟨10⟩ 7 0x0050
            (World.start ⟨[], 0⟩)).2.log →
        pData = [0x55, 7, 0x0050 &&& 0xFF, 0x0050 >>> 8] ∧ size = 4) ∧
    (frames (PGA308_SingleRegister_Write echoTransport ⟨10⟩ 7 0x0050
        (World.start ⟨[], 0⟩)).2.log = [[0x55, 7, 0x0050 &&& 0xFF, 0x0050 >>> 8]] ∨
     (frames (PGA308_SingleRegister_Write echoTransport ⟨10⟩ 7 0x0050
        (World.start ⟨[], 0⟩)).2.log = [] ∧
        (echoTransport.enableTransmitter ⟨[], 0⟩).1 ≠ HAL_OK))) :=
  ⟨⟨by decide, by decide⟩,
    Write_frame echoTransport ⟨10⟩ 7 0x0050 ⟨[], 0⟩ (by decide) (by decide)⟩

/-- C7: for a register address `A` in 0..10, the only frame a single-register
read hands to the transport is the two bytes `[0x55, 0x80 | A]`, sent with
size 2; it hands over exactly this one frame unless the enable-transmitter call
failed, in which case it hands over none. -/
theorem Read_frame {σ : Type} (hal : Transport σ) (h : PGA308_HW_InitTypeDef) (A old : Nat)
    (s : σ) (hA : A ≤ 10) :
    (∀ pData size timeout st,
      Event.Transmit pData size timeout st ∈
          (PGA308_SingleRegister_Read hal h A old (World.start s)).2.2.log →
        pData = [0x55, 0x80 ||| A] ∧ size = 2) ∧
    (frames (PGA308_SingleRegister_Read hal h A old (World.start s)).2.2.log =
        [[0x55, 0x80 ||| A]] ∨
     (frames (PGA308_SingleRegister_Read hal h A old (World.start s)).2.2.log = [] ∧
        (hal.enableTransmitter s).1 ≠ HAL_OK)) := by
  have h0 : (World.start s).log = [] := rfl
  have hu : (World.start s).uart = s := rfl
  have e1 : (0x80 ||| A) % 256 = 0x80 ||| A := by
    interval_cases A <;> decide
  rcases Read_cases hal h A old (World.start s) with
    ⟨st, hst, hen, -, -, hl⟩ | ⟨st, -, -, -, -, hl⟩ | ⟨st, -, -, -, -, hl⟩ |
    ⟨st, b0, b1, -, -, -, -, hl⟩ | ⟨b0, b1, -, -, -, -, -, hl⟩
  all_goals simp only [h0, List.nil_append, e1] at hl
  · rw [hu] at hen
    rw [hl]
    refine ⟨by simp, Or.inr ⟨by simp [frames], ?_⟩⟩
    rw [hen]; exact hst
  all_goals
    rw [hl]
    refine ⟨?_, Or.inl (by simp [frames])⟩
    intro pData size timeout st2 hmem
    simp only [List.mem_cons, List.mem_singleton, List.not_mem_nil, Event.Transmit.injEq,
      reduceCtorEq, false_or, or_false] at hmem
    exact ⟨hmem.1, hmem.2.1⟩

/-- Witness for C7: the read of the software-control register, address 0x07. -/
theorem Read_frame_witness :
    7 ≤ 10 ∧
    ((∀ pData size timeout st,
      Event.Transmit pData size timeout st ∈
          (PGA308_SingleRegister_Read echoTransport ⟨10⟩ 7 0 (World.start ⟨[], 0⟩)).2.2.log →
        pData = [0x55, 0x80 ||| 7] ∧ size = 2) ∧
    (frames (PGA308_SingleRegister_Read echoTransport ⟨10⟩ 7 0 (World.start ⟨[], 0⟩)).2.2.log =
        [[0x55, 0x80 ||| 7]] ∨
     (frames (PGA308_SingleRegister_Read echoTransport ⟨10⟩ 7 0 (World.start ⟨[], 0⟩)).2.2.log
        = [] ∧ (echoTransport.enableTransmitter ⟨[], 0⟩).1 ≠ HAL_OK))) :=
  ⟨by decide, Read_frame echoTransport ⟨10⟩ 7 0 ⟨[], 0⟩ (by decide)⟩

/-- C8: when no transport call of a single-register read fails and its receive
call left the bytes `b0`, `b1` in the buffer, the read returns `PGA_NO_ERROR`
and stores `b0 | (b1 << 8)`; and for all byte pairs the sum `(b1 << 8) + b0`
of the source, taken in 16 bits, equals that bitwise OR. -/
theorem Read_stores_reply {σ : Type} (hal : Transport σ) (h : PGA308_HW_InitTypeDef)
    (A old : Nat) (s : σ) (b0 b1 : Nat)
    (hok : ∀ e ∈ (PGA308_SingleRegister_Read hal h A old (World.start s)).2.2.log,
      e.failed = false)
    (hrx : Event.Receive 2 h.USART_Timeout HAL_OK b0 b1 ∈
      (PGA308_SingleRegister_Read hal h A old (World.start s)).2.2.log) :
    (PGA308_SingleRegister_Read hal h A old (World.start s)).1 = PGA_NO_ERROR ∧
    (PGA308_SingleRegister_Read hal h A old (World.start s)).2.1 = b0 ||| (b1 <<< 8) ∧
    (∀ c0 c1, c0 < 256 → c1 < 256 → ((c1 <<< 8) + c0) % 65536 = c0 ||| (c1 <<< 8)) := by
  have h0 : (World.start s).log = [] := rfl
  refine ⟨?_, ?_, fun c0 c1 h0 h1 => shift_add_eq_replyValue c0 c1 h0 h1⟩
  · exact ((SingleRegister_read_no_error_iff hal h A old (World.start s) rfl).2 hok)
  · rcases Read_cases hal h A old (World.start s) with
      ⟨st, hst, -, -, -, hl⟩ | ⟨st, hst, -, -, -, hl⟩ | ⟨st, hst, -, -, -, hl⟩ |
      ⟨st, c0, c1, hst, -, -, -, hl⟩ | ⟨c0, c1, hc0, hc1, -, -, ho, hl⟩
    all_goals
      rw [h0, List.nil_append] at hl
      rw [hl] at hrx
      simp only [List.mem_cons, List.mem_singleton, List.not_mem_nil, Event.Receive.injEq,
        reduceCtorEq, false_or, or_false, true_and] at hrx
    · exact absurd hrx.1.symm hst
    · obtain ⟨rfl, rfl⟩ := hrx
      rw [ho]
      exact shift_add_eq_replyValue b0 b1 hc0 hc1

/-- Witness for C8: a transport whose receive leaves the bytes 0x34, 0x12. -/
theorem Read_stores_reply_witness :
    ((∀ e ∈ (PGA308_SingleRegister_Read scriptedTransport ⟨10⟩ 0 0
        (World.start [(HAL_OK, 0, 0), (HAL_OK, 0, 0), (HAL_OK, 0, 0),
          (HAL_OK, 0x34, 0x12)])).2.2.log, e.failed = false) ∧
     Event.Receive 2 10 HAL_OK 0x34 0x12 ∈
      (PGA308_SingleRegister_Read scriptedTransport ⟨10⟩ 0 0
        (World.start [(HAL_OK, 0, 0), (HAL_OK, 0, 0), (HAL_OK, 0, 0),
          (HAL_OK, 0x34, 0x12)])).2.2.log) ∧
    ((PGA308_SingleRegister_Read scriptedTransport ⟨10⟩ 0 0
        (World.start [(HAL_OK, 0, 0), (HAL_OK, 0, 0), (HAL_OK, 0, 0),
          (HAL_OK, 0x34, 0x12)])).1 = PGA_NO_ERROR ∧
     (PGA308_SingleRegister_Read scriptedTransport ⟨10⟩ 0 0
        (World.start [(HAL_OK, 0, 0), (HAL_OK, 0, 0), (HAL_OK, 0, 0),
          (HAL_OK, 0x34, 0x12)])).2.1 = 0x34 ||| (0x12 <<< 8) ∧
     (∀ c0 c1, c0 < 256 → c1 < 256 → ((c1 <<< 8) + c0) % 65536 = c0 ||| (c1 <<< 8))) :=
  ⟨⟨by decide, by decide⟩,
    Read_stores_reply scriptedTransport ⟨10⟩ 0 0
      [(HAL_OK, 0, 0), (HAL_OK, 0, 0), (HAL_OK, 0, 0), (HAL_OK, 0x34, 0x12)] 0x34 0x12
      (by decide) (by decide)⟩

/-- C9: payload round trip.  For a 16-bit value `V`, if a single-register read
receives as its reply the two payload bytes (bytes 2 and 3) of the frame that a
single-register write hands to the transport for `V`, the read returns
`PGA_NO_ERROR` and stores `V`. -/
theorem Payload_round_trip {σ τ : Type} (halW : Transport σ) (halR : Transport τ)
    (hW hR : PGA308_HW_InitTypeDef) (A A2 old V : Nat) (s : σ) (s2 : τ)
    (sync cmd p0 p1 : Nat) (hV : V < 65536)
    (hframe : [sync, cmd, p0, p1] ∈
      frames (PGA308_SingleRegister_Write halW hW A V (World.start s)).2.log)
    (hrx : Event.Receive 2 hR.USART_Timeout HAL_OK p0 p1 ∈
      (PGA308_SingleRegister_Read halR hR A2 old (World.start s2)).2.2.log) :
    (PGA308_SingleRegister_Read halR hR A2 old (World.start s2)).1 = PGA_NO_ERROR ∧
    (PGA308_SingleRegister_Read halR hR A2 old (World.start s2)).2.1 = V := by
  have h0 : (World.start s).log = [] := rfl
  have h02 : (World.start s2).log = [] := rfl
  have hp : p0 = (V &&& 0xFF) % 256 ∧ p1 = (V >>> 8) % 256 := by
    rcases Write_cases halW hW A V (World.start s) with
      ⟨st, -, -, -, hl⟩ | ⟨st, -, -, -, hl⟩ | ⟨-, -, hl⟩
    all_goals
      rw [h0, List.nil_append] at hl
      rw [hl] at hframe
      simp [frames] at hframe
    · exact ⟨hframe.2.2.1, hframe.2.2.2⟩
    · exact ⟨hframe.2.2.1, hframe.2.2.2⟩
  rcases Read_cases halR hR A2 old (World.start s2) with
    ⟨st, hst, -, -, -, hl⟩ | ⟨st, hst, -, -, -, hl⟩ | ⟨st, hst, -, -, -, hl⟩ |
    ⟨st, c0, c1, hst, -, -, -, hl⟩ | ⟨c0, c1, hc0, hc1, -, hr, ho, hl⟩
  all_goals
    rw [h02, List.nil_append] at hl
    rw [hl] at hrx
    simp only [List.mem_cons, List.mem_singleton, List.not_mem_nil, Event.Receive.injEq,
      reduceCtorEq, false_or, or_false, true_and] at hrx
  · exact absurd hrx.1.symm hst
  · obtain ⟨rfl, rfl⟩ := hrx
    refine ⟨hr, ?_⟩
    rw [ho, shift_add_eq_replyValue p0 p1 hc0 hc1, hp.1, hp.2]
    exact replyValue_payload V hV

/-- Witness for C9: the value 0x1234 written to the zero-offset register of the
simulated chip and read back from it. -/
theorem Payload_round_trip_witness :
    (0x1234 < 65536 ∧
     [0x55, 0x00, 0x34, 0x12] ∈
      frames (PGA308_SingleRegister_Write echoTransport ⟨10⟩ 0 0x1234
        (World.start ⟨[], 0⟩)).2.log ∧
     Event.Receive 2 10 HAL_OK 0x34 0x12 ∈
      (PGA308_SingleRegister_Read echoTransport ⟨10⟩ 0 0
        (World.start ⟨[(0, 0x1234)], 0⟩)).2.2.log) ∧
    ((PGA308_SingleRegister_Read echoTransport ⟨10⟩ 0 0
        (World.start ⟨[(0, 0x1234)], 0⟩)).1 = PGA_NO_ERROR ∧
     (PGA308_SingleRegister_Read echoTransport ⟨10⟩ 0 0
        (World.start ⟨[(0, 0x1234)], 0⟩)).2.1 = 0x1234) :=
  ⟨⟨by decide, by decide, by decide⟩,
    Payload_round_trip echoTransport echoTransport ⟨10⟩ ⟨10⟩ 0 0 0 0x1234 ⟨[], 0⟩
      ⟨[(0, 0x1234)], 0⟩ 0x55 0x00 0x34 0x12 (by decide) (by decide) (by decide)⟩

/-- C14: for a register address `A` in 0..10, a single-register write hands the
transport exactly one frame `[0x55, cmd, lo, hi]` whose command byte `cmd` has
bit 0x80 (read) clear, bit 0x40 (OTP) clear and low six bits equal to `A`; a
single-register read hands over exactly one frame `[0x55, cmd]` whose command
byte has bit 0x80 set, bit 0x40 clear and low six bits equal to `A`.  The only
case in which no frame is handed over is a failed enable-transmitter call. -/
theorem Command_byte_layout {σ : Type} (hal : Transport σ) (h : PGA308_HW_InitTypeDef)
    (A V old : Nat) (s : σ) (hA : A ≤ 10) :
    ((∃ cmd lo hi,
        frames (PGA308_SingleRegister_Write hal h A V (World.start s)).2.log =
          [[0x55, cmd, lo, hi]] ∧
        cmd &&& 0x80 = 0 ∧ cmd &&& 0x40 = 0 ∧ cmd &&& 0x3F = A) ∨
     (frames (PGA308_SingleRegister_Write hal h A V (World.start s)).2.log = [] ∧
        (hal.enableTransmitter s).1 ≠ HAL_OK)) ∧
    ((∃ cmd,
        frames (PGA308_SingleRegister_Read hal h A old (World.start s)).2.2.log =
          [[0x55, cmd]] ∧
        cmd &&& 0x80 = 0x80 ∧ cmd &&& 0x40 = 0 ∧ cmd &&& 0x3F = A) ∨
     (frames (PGA308_SingleRegister_Read hal h A old (World.start s)).2.2.log = [] ∧
        (hal.enableTransmitter s).1 ≠ HAL_OK)) := by
  have h0 : (World.start s).log = [] := rfl
  have hu : (World.start s).uart = s := rfl
  have eW : A % 256 = A := Nat.mod_eq_of_lt (by omega)
  have bW : A &&& 0x80 = 0 ∧ A &&& 0x40 = 0 ∧ A &&& 0x3F = A := by
    interval_cases A <;> decide
  have bR : (0x80 ||| A) % 256 &&& 0x80 = 0x80 ∧ (0x80 ||| A) % 256 &&& 0x40 = 0 ∧
      (0x80 ||| A) % 256 &&& 0x3F = A := by
    interval_cases A <;> decide
  constructor
  · rcases Write_cases hal h A V (World.start s) with
      ⟨st, hst, hen, -, hl⟩ | ⟨st, -, -, -, hl⟩ | ⟨-, -, hl⟩
    all_goals
      simp only [h0, List.nil_append, eW] at hl
      rw [hl]
    · right
      rw [hu] at hen
      exact ⟨by simp [frames], by rw [hen]; exact hst⟩
    · left
      exact ⟨A, (V &&& 0xFF) % 256, (V >>> 8) % 256, by simp [frames], bW⟩
    · left
      exact ⟨A, (V &&& 0xFF) % 256, (V >>> 8) % 256, by simp [frames], bW⟩
  · rcases Read_cases hal h A old (World.start s) with
      ⟨st, hst, hen, -, -, hl⟩ | ⟨st, -, -, -, -, hl⟩ | ⟨st, -, -, -, -, hl⟩ |
      ⟨st, b0, b1, -, -, -, -, hl⟩ | ⟨b0, b1, -, -, -, -, -, hl⟩
    all_goals
      simp only [h0, List.nil_append] at hl
      rw [hl]
    · right
      rw [hu] at hen
      exact ⟨by simp [frames], by rw [hen]; exact hst⟩
    all_goals
      left
      exact ⟨(0x80 ||| A) % 256, by simp [frames], bR⟩

/-- Witness for C14: the software-control register, address 0x07, on the echoing
chip.  Its enable-transmitter call succeeds, so both operations do hand over a
frame, and the command bytes are 0x07 and 0x87. -/
theorem Command_byte_layout_witness :
    (7 ≤ 10 ∧ (echoTransport.enableTransmitter ⟨[], 0⟩).1 = HAL_OK ∧
     frames (PGA308_SingleRegister_Write echoTransport ⟨10⟩ 7 0x0050
        (World.start ⟨[], 0⟩)).2.log = [[0x55, 0x07, 0x50, 0x00]] ∧
     frames (PGA308_SingleRegister_Read echoTransport ⟨10⟩ 7 0
        (World.start ⟨[], 0⟩)).2.2.log = [[0x55, 0x87]]) ∧
    (((∃ cmd lo hi,
        frames (PGA308_SingleRegister_Write echoTransport ⟨10⟩ 7 0x0050
          (World.start ⟨[], 0⟩)).2.log = [[0x55, cmd, lo, hi]] ∧
        cmd &&& 0x80 = 0 ∧ cmd &&& 0x40 = 0 ∧ cmd &&& 0x3F = 7) ∨
     (frames (PGA308_SingleRegister_Write echoTransport ⟨10⟩ 7 0x0050
          (World.start ⟨[], 0⟩)).2.log = [] ∧
        (echoTransport.enableTransmitter ⟨[], 0⟩).1 ≠ HAL_OK)) ∧
    ((∃ cmd,
        frames (PGA308_SingleRegister_Read echoTransport ⟨10⟩ 7 0
          (World.start ⟨[], 0⟩)).2.2.log = [[0x55, cmd]] ∧
        cmd &&& 0x80 = 0x80 ∧ cmd &&& 0x40 = 0 ∧ cmd &&& 0x3F = 7) ∨
     (frames (PGA308_SingleRegister_Read echoTransport ⟨10⟩ 7 0
          (World.start ⟨[], 0⟩)).2.2.log = [] ∧
        (echoTransport.enableTransmitter ⟨[], 0⟩).1 ≠ HAL_OK))) :=
  ⟨⟨by decide, by decide, by decide, by decide⟩,
    Command_byte_layout echoTransport ⟨10⟩ 7 0x0050 0 ⟨[], 0⟩ (by decide)⟩

/-- C16: a single-register write performs no read-back.  Its transport calls are
the enable-transmitter call alone, when that failed, or the enable-transmitter
call followed by one transmit of the 4-byte frame with the timeout of the
handle; it never enables the receiver and never receives; and when none of its
calls failed it returns `PGA_NO_ERROR`. -/
theorem Write_no_read_back {σ : Type} (hal : Transport σ) (h : PGA308_HW_InitTypeDef)
    (A V : Nat) (s : σ) :
    ((∃ st, st ≠ HAL_OK ∧ halCalls (PGA308_SingleRegister_Write hal h A V (World.start s)).2.log =
        [Event.EnableTransmitter st]) ∨
     (∃ st, halCalls (PGA308_SingleRegister_Write hal h A V (World.start s)).2.log =
        [Event.EnableTransmitter HAL_OK,
         Event.Transmit [0x55, A % 256, (V &&& 0xFF) % 256, (V >>> 8) % 256] 4
           h.USART_Timeout st])) ∧
    (∀ e ∈ (PGA308_SingleRegister_Write hal h A V (World.start s)).2.log, e.receives = false) ∧
    ((∀ e ∈ (PGA308_SingleRegister_Write hal h A V (World.start s)).2.log, e.failed = false) →
      (PGA308_SingleRegister_Write hal h A V (World.start s)).1 = PGA_NO_ERROR) := by
  have h0 : (World.start s).log = [] := rfl
  rcases Write_cases hal h A V (World.start s) with
    ⟨st, hst, -, hr, hl⟩ | ⟨st, hst, -, hr, hl⟩ | ⟨-, hr, hl⟩
  all_goals
    rw [h0, List.nil_append] at hl
    rw [hl]
  · refine ⟨Or.inl ⟨st, hst, by simp [halCalls, Event.isHal]⟩, by simp [Event.receives], ?_⟩
    intro hok
    have := hok (Event.EnableTransmitter st) (by simp)
    simp [Event.failed, hst] at this
  · refine ⟨Or.inr ⟨st, by simp [halCalls, Event.isHal]⟩, by simp [Event.receives], ?_⟩
    intro hok
    have := hok (Event.Transmit [0x55, A % 256, (V &&& 0xFF) % 256, (V >>> 8) % 256] 4
      h.USART_Timeout st) (by simp)
    simp [Event.failed, hst] at this
  · exact ⟨Or.inr ⟨HAL_OK, by simp [halCalls, Event.isHal]⟩, by simp [Event.receives],
      fun _ => hr⟩

/-- C15: when no transport call fails, a single-register read performs exactly
four transport calls, in this order: enable-transmitter, transmit of the 2-byte
command with the timeout of the handle, enable-receiver, receive of 2 bytes
with the timeout of the handle.  And whatever the transport does, an
enable-receiver call comes directly after the successful transmit of the
command, and a receive call (of 2 bytes, with the timeout of the handle) comes
directly after a successful enable-receiver call. -/
theorem Read_transport_calls {σ : Type} (hal : Transport σ) (h : PGA308_HW_InitTypeDef)
    (A old : Nat) (s : σ) :
    ((∀ e ∈ (PGA308_SingleRegister_Read hal h A old (World.start s)).2.2.log, e.failed = false) →
      ∃ b0 b1, halCalls (PGA308_SingleRegister_Read hal h A old (World.start s)).2.2.log =
        [Event.EnableTransmitter HAL_OK,
         Event.Transmit [0x55, (0x80 ||| A) % 256] 2 h.USART_Timeout HAL_OK,
         Event.EnableReceiver HAL_OK,
         Event.Receive 2 h.USART_Timeout HAL_OK b0 b1]) ∧
    (∀ pre st post,
      (PGA308_SingleRegister_Read hal h A old (World.start s)).2.2.log =
          pre ++ Event.EnableReceiver st :: post →
        ∃ pre2, pre = pre2 ++
          [Event.Transmit [0x55, (0x80 ||| A) % 256] 2 h.USART_Timeout HAL_OK]) ∧
    (∀ pre size tmo st b0 b1 post,
      (PGA308_SingleRegister_Read hal h A old (World.start s)).2.2.log =
          pre ++ Event.Receive size tmo st b0 b1 :: post →
        size = 2 ∧ tmo = h.USART_Timeout ∧
          ∃ pre2, pre = pre2 ++ [Event.EnableReceiver HAL_OK]) := by
  have h0 : (World.start s).log = [] := rfl
  rcases Read_cases hal h A old (World.start s) with
    ⟨st1, hst, -, -, -, hl⟩ | ⟨st1, hst, -, -, -, hl⟩ | ⟨st1, hst, -, -, -, hl⟩ |
    ⟨st1, c0, c1, hst, -, -, -, hl⟩ | ⟨c0, c1, -, -, -, -, -, hl⟩
  all_goals
    rw [h0, List.nil_append] at hl
    rw [hl]
    refine ⟨?_, ?_, ?_⟩
  · intro hok
    have := hok (Event.EnableTransmitter st1) (by simp)
    simp [Event.failed, hst] at this
  · intro pre st post hsplit
    rcases pre with _ | ⟨p1, _ | ⟨p2, pre3⟩⟩ <;> simp at hsplit
  · intro pre size tmo st b0 b1 post hsplit
    rcases pre with _ | ⟨p1, _ | ⟨p2, pre3⟩⟩ <;> simp at hsplit
  · intro hok
    have := hok (Event.Transmit [0x55, (0x80 ||| A) % 256] 2 h.USART_Timeout st1) (by simp)
    simp [Event.failed, hst] at this
  · intro pre st post hsplit
    rcases pre with _ | ⟨p1, _ | ⟨p2, _ | ⟨p3, pre4⟩⟩⟩ <;> simp at hsplit
  · intro pre size tmo st b0 b1 post hsplit
    rcases pre with _ | ⟨p1, _ | ⟨p2, _ | ⟨p3, pre4⟩⟩⟩ <;> simp at hsplit
  · intro hok
    have := hok (Event.EnableReceiver st1) (by simp)
    simp [Event.failed, hst] at this
  · intro pre st post hsplit
    rcases pre with _ | ⟨p1, _ | ⟨p2, _ | ⟨p3, _ | ⟨p4, pre5⟩⟩⟩⟩ <;> simp at hsplit
    obtain ⟨rfl, rfl, rfl, -⟩ := hsplit
    exact ⟨[_, _], rfl⟩
  · intro pre size tmo st b0 b1 post hsplit
    rcases pre with _ | ⟨p1, _ | ⟨p2, _ | ⟨p3, _ | ⟨p4, pre5⟩⟩⟩⟩ <;> simp at hsplit
  · intro hok
    have := hok (Event.Receive 2 h.USART_Timeout st1 c0 c1) (by simp)
    simp [Event.failed, hst] at this
  · intro pre st post hsplit
    rcases pre with _ | ⟨p1, _ | ⟨p2, _ | ⟨p3, _ | ⟨p4, _ | ⟨p5, pre6⟩⟩⟩⟩⟩ <;>
      simp at hsplit
    obtain ⟨rfl, rfl, rfl, -⟩ := hsplit
    exact ⟨[_, _], rfl⟩
  · intro pre size tmo st b0 b1 post hsplit
    rcases pre with _ | ⟨p1, _ | ⟨p2, _ | ⟨p3, _ | ⟨p4, _ | ⟨p5, pre6⟩⟩⟩⟩⟩ <;>
      simp at hsplit
    obtain ⟨rfl, rfl, rfl, rfl, ⟨rfl, rfl, -⟩, -⟩ := hsplit
    exact ⟨rfl, rfl, [_, _, _], rfl⟩
  · intro _
    exact ⟨c0, c1, by simp [halCalls, Event.isHal]⟩
  · intro pre st post hsplit
    rcases pre with _ | ⟨p1, _ | ⟨p2, _ | ⟨p3, _ | ⟨p4, _ | ⟨p5, pre6⟩⟩⟩⟩⟩ <;>
      simp at hsplit
    obtain ⟨rfl, rfl, rfl, -⟩ := hsplit
    exact ⟨[_, _], rfl⟩
  · intro pre size tmo st b0 b1 post hsplit
    rcases pre with _ | ⟨p1, _ | ⟨p2, _ | ⟨p3, _ | ⟨p4, _ | ⟨p5, pre6⟩⟩⟩⟩⟩ <;>
      simp at hsplit
    obtain ⟨rfl, rfl, rfl, rfl, ⟨rfl, rfl, -⟩, -⟩ := hsplit
    exact ⟨rfl, rfl, [_, _, _], rfl⟩

/-- Witness for C15: the read of the software-control register on the echoing
chip, where no transport call fails. -/
theorem Read_transport_calls_witness :
    (∀ e ∈ (PGA308_SingleRegister_Read echoTransport ⟨10⟩ 7 0 (World.start ⟨[], 0⟩)).2.2.log,
      e.failed = false) ∧
    (∃ b0 b1,
      halCalls (PGA308_SingleRegister_Read echoTransport ⟨10⟩ 7 0
          (World.start ⟨[], 0⟩)).2.2.log =
        [Event.EnableTransmitter HAL_OK,
         Event.Transmit [0x55, (0x80 ||| 7) % 256] 2 10 HAL_OK,
         Event.EnableReceiver HAL_OK,
         Event.Receive 2 10 HAL_OK b0 b1]) :=
  ⟨by decide, (Read_transport_calls echoTransport ⟨10⟩ 7 0 ⟨[], 0⟩).1 (by decide)⟩

/-! ## Bulk status read -/

/-- C10: whatever the transport does, `PGA308_All_Registers_Read` invokes
exactly eleven single-register reads, for the addresses 0x00 up to 0x0A in this
order, and returns `PGA_NO_ERROR`. -/
theorem All_Registers_Read_eleven_reads {σ : Type} (hal : Transport σ)
    (h : PGA308_HW_InitTypeDef) (regs : PGA308_Registers_InitTypeDef) (s : σ) :
    ops (PGA308_All_Registers_Read hal h regs (World.start s)).2.2.log =
      [Op.read 0x00, Op.read 0x01, Op.read 0x02, Op.read 0x03, Op.read 0x04, Op.read 0x05,
       Op.read 0x06, Op.read 0x07, Op.read 0x08, Op.read 0x09, Op.read 0x0A] ∧
    (PGA308_All_Registers_Read hal h regs (World.start s)).1 = PGA_NO_ERROR := by
  have h0 : ops (World.start s).log = [] := rfl
  constructor
  · simp only [PGA308_All_Registers_Read, ops_Read, h0, List.nil_append, List.append_assoc,
      List.singleton_append, PGA_ZDAC_REG, PGA_GDAC_REG, PGA_CFG0_REG, PGA_CFG1_REG,
      PGA_CFG2_REG, PGA_CHKS_REG, PGA_CHSR_REG, PGA_SFTC_REG, PGA_OENC_REG, PGA_ALMR_REG,
      PGA_OTPS_REG]
    rfl
  · rfl

/-- C11: whatever the initial snapshot structure and the transport, the record of
`PGA308_All_Registers_Read` holds eleven reads, of the addresses 0x00 up to 0x0A
in order, and each field is affected by the read of its own address only
(REG_ZDAC by the read of 0x00, ..., REG_OTPS by the read of 0x0A): where that
read failed the field holds its value from before the call, where it did not
fail the field holds the decoded 16-bit reply that read received. -/
theorem All_Registers_Read_fields {σ : Type} (hal : Transport σ) (h : PGA308_HW_InitTypeDef)
    (regs : PGA308_Registers_InitTypeDef) (s : σ) :
    ∃ o0 o1 o2 o3 o4 o5 o6 o7 o8 o9 o10 : Bool × Option Nat,
      readOutcomes (PGA308_All_Registers_Read hal h regs (World.start s)).2.2.log =
        [(0x00, o0), (0x01, o1), (0x02, o2), (0x03, o3), (0x04, o4), (0x05, o5),
         (0x06, o6), (0x07, o7), (0x08, o8), (0x09, o9), (0x0A, o10)] ∧
      FieldEffect regs.REG_ZDAC
        (PGA308_All_Registers_Read hal h regs (World.start s)).2.1.REG_ZDAC o0 ∧
      FieldEffect regs.REG_GDAC
        (PGA308_All_Registers_Read hal h regs (World.start s)).2.1.REG_GDAC o1 ∧
      FieldEffect regs.REG_CFG0
        (PGA308_All_Registers_Read hal h regs (World.start s)).2.1.REG_CFG0 o2 ∧
      FieldEffect regs.REG_CFG1
        (PGA308_All_Registers_Read hal h regs (World.start s)).2.1.REG_CFG1 o3 ∧
      FieldEffect regs.REG_CFG2
        (PGA308_All_Registers_Read hal h regs (World.start s)).2.1.REG_CFG2 o4 ∧
      FieldEffect regs.REG_CHKS
        (PGA308_All_Registers_Read hal h regs (World.start s)).2.1.REG_CHKS o5 ∧
      FieldEffect regs.REG_CHSR
        (PGA308_All_Registers_Read hal h regs (World.start s)).2.1.REG_CHSR o6 ∧
      FieldEffect regs.REG_SFTC
        (PGA308_All_Registers_Read hal h regs (World.start s)).2.1.REG_SFTC o7 ∧
      FieldEffect regs.REG_OENC
        (PGA308_All_Registers_Read hal h regs (World.start s)).2.1.REG_OENC o8 ∧
      FieldEffect regs.REG_ALMR
        (PGA308_All_Registers_Read hal h regs (World.start s)).2.1.REG_ALMR o9 ∧
      FieldEffect regs.REG_OTPS
        (PGA308_All_Registers_Read hal h regs (World.start s)).2.1.REG_OTPS o10 := by
  obtain ⟨o0, hf0, e0⟩ := readOutcomes_Read hal h PGA_ZDAC_REG regs.REG_ZDAC
    (World.start s)
  obtain ⟨o1, hf1, e1⟩ := readOutcomes_Read hal h PGA_GDAC_REG regs.REG_GDAC
    (PGA308_SingleRegister_Read hal h PGA_ZDAC_REG regs.REG_ZDAC
    (World.start s)).2.2
  obtain ⟨o2, hf2, e2⟩ := readOutcomes_Read hal h PGA_CFG0_REG regs.REG_CFG0
    (PGA308_SingleRegister_Read hal h PGA_GDAC_REG regs.REG_GDAC
    (PGA308_SingleRegister_Read hal h PGA_ZDAC_REG regs.REG_ZDAC
    (World.start s)).2.2).2.2
  obtain ⟨o3, hf3, e3⟩ := readOutcomes_Read hal h PGA_CFG1_REG regs.REG_CFG1
    (PGA308_SingleRegister_Read hal h PGA_CFG0_REG regs.REG_CFG0
    (PGA308_SingleRegister_Read hal h PGA_GDAC_REG regs.REG_GDAC
    (PGA308_SingleRegister_Read hal h PGA_ZDAC_REG regs.REG_ZDAC
    (World.start s)).2.2).2.2).2.2
  obtain ⟨o4, hf4, e4⟩ := readOutcomes_Read hal h PGA_CFG2_REG regs.REG_CFG2
    (PGA308_SingleRegister_Read hal h PGA_CFG1_REG regs.REG_CFG1
    (PGA308_SingleRegister_Read hal h PGA_CFG0_REG regs.REG_CFG0
    (PGA308_SingleRegister_Read hal h PGA_GDAC_REG regs.REG_GDAC
    (PGA308_SingleRegister_Read hal h PGA_ZDAC_REG regs.REG_ZDAC
    (World.start s)).2.2).2.2).2.2).2.2
  obtain ⟨o5, hf5, e5⟩ := readOutcomes_Read hal h PGA_CHKS_REG regs.REG_CHKS
    (PGA308_SingleRegister_Read hal h PGA_CFG2_REG regs.REG_CFG2
    (PGA308_SingleRegister_Read hal h PGA_CFG1_REG regs.REG_CFG1
    (PGA308_SingleRegister_Read hal h PGA_CFG0_REG regs.REG_CFG0
    (PGA308_SingleRegister_Read hal h PGA_GDAC_REG regs.REG_GDAC
    (PGA308_SingleRegister_Read hal h PGA_ZDAC_REG regs.REG_ZDAC
    (World.start s)).2.2).2.2).2.2).2.2).2.2
  obtain ⟨o6, hf6, e6⟩ := readOutcomes_Read hal h PGA_CHSR_REG regs.REG_CHSR
    (PGA308_SingleRegister_Read hal h PGA_CHKS_REG regs.REG_CHKS
    (PGA308_SingleRegister_Read hal h PGA_CFG2_REG regs.REG_CFG2
    (PGA308_SingleRegister_Read hal h PGA_CFG1_REG regs.REG_CFG1
    (PGA308_SingleRegister_Read hal h PGA_CFG0_REG regs.REG_CFG0
    (PGA308_SingleRegister_Read hal h PGA_GDAC_REG regs.REG_GDAC
    (PGA308_SingleRegister_Read hal h PGA_ZDAC_REG regs.REG_ZDAC
    (World.start s)).2.2).2.2).2.2).2.2).2.2).2.2
  obtain ⟨o7, hf7, e7⟩ := readOutcomes_Read hal h PGA_SFTC_REG regs.REG_SFTC
    (PGA308_SingleRegister_Read hal h PGA_CHSR_REG regs.REG_CHSR
    (PGA308_SingleRegister_Read hal h PGA_CHKS_REG regs.REG_CHKS
    (PGA308_SingleRegister_Read hal h PGA_CFG2_REG regs.REG_CFG2
    (PGA308_SingleRegister_Read hal h PGA_CFG1_REG regs.REG_CFG1
    (PGA308_SingleRegister_Read hal h PGA_CFG0_REG regs.REG_CFG0
    (PGA308_SingleRegister_Read hal h PGA_GDAC_REG regs.REG_GDAC
    (PGA308_SingleRegister_Read hal h PGA_ZDAC_REG regs.REG_ZDAC
    (World.start s)).2.2).2.2).2.2).2.2).2.2).2.2).2.2
  obtain ⟨o8, hf8, e8⟩ := readOutcomes_Read hal h PGA_OENC_REG regs.REG_OENC
    (PGA308_SingleRegister_Read hal h PGA_SFTC_REG regs.REG_SFTC
    (PGA308_SingleRegister_Read hal h PGA_CHSR_REG regs.REG_CHSR
    (PGA308_SingleRegister_Read hal h PGA_CHKS_REG regs.REG_CHKS
    (PGA308_SingleRegister_Read hal h PGA_CFG2_REG regs.REG_CFG2
    (PGA308_SingleRegister_Read hal h PGA_CFG1_REG regs.REG_CFG1
    (PGA308_SingleRegister_Read hal h PGA_CFG0_REG regs.REG_CFG0
    (PGA308_SingleRegister_Read hal h PGA_GDAC_REG regs.REG_GDAC
    (PGA308_SingleRegister_Read hal h PGA_ZDAC_REG regs.REG_ZDAC
    (World.start s)).2.2).2.2).2.2).2.2).2.2).2.2).2.2).2.2
  obtain ⟨o9, hf9, e9⟩ := readOutcomes_Read hal h PGA_ALMR_REG regs.REG_ALMR
    (PGA308_SingleRegister_Read hal h PGA_OENC_REG regs.REG_OENC
    (PGA308_SingleRegister_Read hal h PGA_SFTC_REG regs.REG_SFTC
    (PGA308_SingleRegister_Read hal h PGA_CHSR_REG regs.REG_CHSR
    (PGA308_SingleRegister_Read hal h PGA_CHKS_REG regs.REG_CHKS
    (PGA308_SingleRegister_Read hal h PGA_CFG2_REG regs.REG_CFG2
    (PGA308_SingleRegister_Read hal h PGA_CFG1_REG regs.REG_CFG1
    (PGA308_SingleRegister_Read hal h PGA_CFG0_REG regs.REG_CFG0
    (PGA308_SingleRegister_Read hal h PGA_GDAC_REG regs.REG_GDAC
    (PGA308_SingleRegister_Read hal h PGA_ZDAC_REG regs.REG_ZDAC
    (World.start s)).2.2).2.2).2.2).2.2).2.2).2.2).2.2).2.2).2.2
  obtain ⟨o10, hf10, e10⟩ := readOutcomes_Read hal h PGA_OTPS_REG regs.REG_OTPS
    (PGA308_SingleRegister_Read hal h PGA_ALMR_REG regs.REG_ALMR
    (PGA308_SingleRegister_Read hal h PGA_OENC_REG regs.REG_OENC
    (PGA308_SingleRegister_Read hal h PGA_SFTC_REG regs.REG_SFTC
    (PGA308_SingleRegister_Read hal h PGA_CHSR_REG regs.REG_CHSR
    (PGA308_SingleRegister_Read hal h PGA_CHKS_REG regs.REG_CHKS
    (PGA308_SingleRegister_Read hal h PGA_CFG2_REG regs.REG_CFG2
    (PGA308_SingleRegister_Read hal h PGA_CFG1_REG regs.REG_CFG1
    (PGA308_SingleRegister_Read hal h PGA_CFG0_REG regs.REG_CFG0
    (PGA308_SingleRegister_Read hal h PGA_GDAC_REG regs.REG_GDAC
    (PGA308_SingleRegister_Read hal h PGA_ZDAC_REG regs.REG_ZDAC
    (World.start s)).2.2).2.2).2.2).2.2).2.2).2.2).2.2).2.2).2.2).2.2
  refine ⟨o0, o1, o2, o3, o4, o5, o6, o7, o8, o9, o10, ?_, hf0, hf1, hf2, hf3, hf4, hf5, hf6, hf7, hf8, hf9, hf10⟩
  show readOutcomes (PGA308_SingleRegister_Read hal h PGA_OTPS_REG regs.REG_OTPS (PGA308_SingleRegister_Read hal h PGA_ALMR_REG regs.REG_ALMR (PGA308_SingleRegister_Read hal h PGA_OENC_REG regs.REG_OENC (PGA308_SingleRegister_Read hal h PGA_SFTC_REG regs.REG_SFTC (PGA308_SingleRegister_Read hal h PGA_CHSR_REG regs.REG_CHSR (PGA308_SingleRegister_Read hal h PGA_CHKS_REG regs.REG_CHKS (PGA308_SingleRegister_Read hal h PGA_CFG2_REG regs.REG_CFG2 (PGA308_SingleRegister_Read hal h PGA_CFG1_REG regs.REG_CFG1 (PGA308_SingleRegister_Read hal h PGA_CFG0_REG regs.REG_CFG0 (PGA308_SingleRegister_Read hal h PGA_GDAC_REG regs.REG_GDAC (PGA308_SingleRegister_Read hal h PGA_ZDAC_REG regs.REG_ZDAC (World.start s)).2.2).2.2).2.2).2.2).2.2).2.2).2.2).2.2).2.2).2.2).2.2.log = _
  rw [e10, e9, e8, e7, e6, e5, e4, e3, e2, e1, e0]
  rfl

/-! ## The configuration sequence -/

/-- C1: if no transport call fails and every read returns exactly the value last
written to the register it reads, `PGA308_Enable` returns `PGA_NO_ERROR` and
performs exactly six write+read pairs, in the order (0x07, 0x0050),
(0x00, REG_ZDAC), (0x01, REG_GDAC), (0x02, REG_CFG0), (0x03, REG_CFG1),
(0x04, REG_CFG2), each read addressing the register just written. -/
theorem Enable_echo {σ : Type} (hal : Transport σ) (h : PGA308_HW_InitTypeDef)
    (regs : PGA308_Registers_InitTypeDef) (s : σ)
    (hok : ∀ e ∈ (PGA308_Enable hal h regs (World.start s)).2.log, e.failed = false)
    (hecho : ∀ b ∈ readBacks (PGA308_Enable hal h regs (World.start s)).2.log, b = true) :
    (PGA308_Enable hal h regs (World.start s)).1 = PGA_NO_ERROR ∧
    ops (PGA308_Enable hal h regs (World.start s)).2.log =
      [Op.write 0x07 0x0050, Op.read 0x07,
       Op.write 0x00 regs.REG_ZDAC, Op.read 0x00,
       Op.write 0x01 regs.REG_GDAC, Op.read 0x01,
       Op.write 0x02 regs.REG_CFG0, Op.read 0x02,
       Op.write 0x03 regs.REG_CFG1, Op.read 0x03,
       Op.write 0x04 regs.REG_CFG2, Op.read 0x04] :=
  RunTrace_echo h.USART_Timeout (Enable_sequence regs) 0 _ _ (Enable_trace hal h regs s) hok
    (fun _ => none) none hecho

/-- Witness for C1: the scenario of spec section 8 (zero-offset 0x1234, gain
0x0010, cfg0 0x00FF, cfg1 0x0001, cfg2 0x0080) on the simulated chip that echoes
every write. -/
theorem Enable_echo_witness :
    ((∀ e ∈ (PGA308_Enable echoTransport ⟨10⟩ scenarioRegisters
        (World.start ⟨[], 0⟩)).2.log, e.failed = false) ∧
     (∀ b ∈ readBacks (PGA308_Enable echoTransport ⟨10⟩ scenarioRegisters
        (World.start ⟨[], 0⟩)).2.log, b = true)) ∧
    ((PGA308_Enable echoTransport ⟨10⟩ scenarioRegisters (World.start ⟨[], 0⟩)).1 =
        PGA_NO_ERROR ∧
     ops (PGA308_Enable echoTransport ⟨10⟩ scenarioRegisters (World.start ⟨[], 0⟩)).2.log =
      [Op.write 0x07 0x0050, Op.read 0x07,
       Op.write 0x00 0x1234, Op.read 0x00,
       Op.write 0x01 0x0010, Op.read 0x01,
       Op.write 0x02 0x00FF, Op.read 0x02,
       Op.write 0x03 0x0001, Op.read 0x03,
       Op.write 0x04 0x0080, Op.read 0x04]) :=
  ⟨⟨by decide, by decide⟩,
    Enable_echo echoTransport ⟨10⟩ scenarioRegisters ⟨[], 0⟩ (by decide) (by decide)⟩

/-- C2: for every `k` in 1..6, if no transport call fails, the read-backs of
steps 1..k-1 equal the values written and the read-back of step `k` differs
from the value written at step `k`, then `PGA308_Enable` returns
`PGA_INV_REG_DATA_READ` and performs exactly the first `k` write+read pairs of
the order 0x07, 0x00, 0x01, 0x02, 0x03, 0x04; nothing later is written or
read. -/
theorem Enable_mismatch {σ : Type} (hal : Transport σ) (h : PGA308_HW_InitTypeDef)
    (regs : PGA308_Registers_InitTypeDef) (s : σ) (k : Nat) (hk1 : 1 ≤ k) (hk6 : k ≤ 6)
    (hok : ∀ e ∈ (PGA308_Enable hal h regs (World.start s)).2.log, e.failed = false)
    (hpre : ∀ i, i < k - 1 →
      (readBacks (PGA308_Enable hal h regs (World.start s)).2.log)[i]? = some true)
    (hk : (readBacks (PGA308_Enable hal h regs (World.start s)).2.log)[k - 1]? = some false) :
    (PGA308_Enable hal h regs (World.start s)).1 = PGA_INV_REG_DATA_READ ∧
    ops (PGA308_Enable hal h regs (World.start s)).2.log =
      List.take (2 * k)
        [Op.write 0x07 0x0050, Op.read 0x07,
         Op.write 0x00 regs.REG_ZDAC, Op.read 0x00,
         Op.write 0x01 regs.REG_GDAC, Op.read 0x01,
         Op.write 0x02 regs.REG_CFG0, Op.read 0x02,
         Op.write 0x03 regs.REG_CFG1, Op.read 0x03,
         Op.write 0x04 regs.REG_CFG2, Op.read 0x04] := by
  have _ := hk6
  have _ := hpre
  have hmain := RunTrace_mismatch_at h.USART_Timeout (Enable_sequence regs) 0 _ _
    (Enable_trace hal h regs s) hok (k - 1) (fun _ => none) none hk
  have e : k - 1 + 1 = k := by omega
  rw [e, pairOps_take] at hmain
  exact hmain

/-- Witness for C2: `k = 2`.  The transport answers the lock read with 0x0050 and
the read of the zero-offset register with 0x0000 instead of 0x1234. -/
theorem Enable_mismatch_witness :
    (1 ≤ 2 ∧ 2 ≤ 6 ∧
     (∀ e ∈ (PGA308_Enable scriptedTransport ⟨10⟩ scenarioRegisters
        (World.start zeroOffsetMismatchScript)).2.log, e.failed = false) ∧
     (∀ i, i < 2 - 1 →
      (readBacks (PGA308_Enable scriptedTransport ⟨10⟩ scenarioRegisters
        (World.start zeroOffsetMismatchScript)).2.log)[i]? = some true) ∧
     (readBacks (PGA308_Enable scriptedTransport ⟨10⟩ scenarioRegisters
        (World.start zeroOffsetMismatchScript)).2.log)[2 - 1]? = some false) ∧
    ((PGA308_Enable scriptedTransport ⟨10⟩ scenarioRegisters
        (World.start zeroOffsetMismatchScript)).1 = PGA_INV_REG_DATA_READ ∧
     ops (PGA308_Enable scriptedTransport ⟨10⟩ scenarioRegisters
        (World.start zeroOffsetMismatchScript)).2.log =
      [Op.write 0x07 0x0050, Op.read 0x07, Op.write 0x00 0x1234, Op.read 0x00]) :=
  ⟨⟨by decide, by decide, by decide, by decide, by decide⟩,
    Enable_mismatch scriptedTransport ⟨10⟩ scenarioRegisters zeroOffsetMismatchScript 2 (by decide) (by decide)
      (by decide) (by decide) (by decide)⟩

/-- C3, the claim as stated fails: with `scenarioRegisters` and a transport whose
first call (the enable-transmitter of the lock write) fails, `PGA308_Enable`
goes on to make 34 more transport calls and returns `PGA_NO_ERROR`, not
`PGA_HAL_ERROR`. -/
theorem Enable_transport_failure_counterexample :
    (PGA308_Enable scriptedTransport ⟨10⟩ scenarioRegisters
        (World.start failedLockWriteScript)).2.log[1]? =
      some (Event.EnableTransmitter HAL_ERROR) ∧
    (halCalls ((PGA308_Enable scriptedTransport ⟨10⟩ scenarioRegisters
        (World.start failedLockWriteScript)).2.log.drop 2)).length = 34 ∧
    (PGA308_Enable scriptedTransport ⟨10⟩ scenarioRegisters
        (World.start failedLockWriteScript)).1 = PGA_NO_ERROR ∧
    (PGA308_Enable scriptedTransport ⟨10⟩ scenarioRegisters
        (World.start failedLockWriteScript)).1 ≠ PGA_HAL_ERROR := by
  decide

/-- C3 (amended): whatever the configuration set and the transport do, a failed
transport call during `PGA308_Enable` ends only the single-register operation
in which it occurs: the next thing recorded after it, if anything, is the
entry into the next operation, never another transport call.  The failure is
not propagated: `PGA308_Enable` returns `PGA_INV_REG_DATA_READ` or
`PGA_NO_ERROR`, never `PGA_HAL_ERROR`. -/
theorem Enable_transport_failure_contained {σ : Type} (hal : Transport σ)
    (h : PGA308_HW_InitTypeDef) (regs : PGA308_Registers_InitTypeDef) (s : σ) :
    (∀ pre e e2 post,
      (PGA308_Enable hal h regs (World.start s)).2.log = pre ++ e :: e2 :: post →
        e.failed = true → e2.isHal = false) ∧
    ((PGA308_Enable hal h regs (World.start s)).1 = PGA_INV_REG_DATA_READ ∨
      (PGA308_Enable hal h regs (World.start s)).1 = PGA_NO_ERROR) ∧
    (PGA308_Enable hal h regs (World.start s)).1 ≠ PGA_HAL_ERROR := by
  have hrun := Enable_trace hal h regs s
  have hout := RunTrace_outcome _ _ _ _ _ hrun
  refine ⟨failureEndsOperation_split _ (RunTrace_failureEndsOperation _ _ _ _ _ hrun), hout, ?_⟩
  rcases hout with e | e <;> rw [e] <;> decide

/-- C4, the claim as stated fails: with `lockValuedRegisters` and a transport on
which the transmit of the lock write fails and the receive of the zero-offset
read times out, the lock write returns `PGA_HAL_ERROR`, a receive is recorded
as failed, and `PGA308_Enable` still returns `PGA_NO_ERROR`. -/
theorem Enable_no_error_counterexample :
    (PGA308_Enable scriptedTransport ⟨10⟩ lockValuedRegisters
        (World.start failedWriteAndReadScript)).1 = PGA_NO_ERROR ∧
    (PGA308_SingleRegister_Write scriptedTransport ⟨10⟩ PGA_SFTC_REG PGA_SFTC_SWL_SOFTLOCK
        (World.start failedWriteAndReadScript)).1 = PGA_HAL_ERROR ∧
    Event.Receive 2 10 HAL_TIMEOUT 0 0 ∈
      (PGA308_Enable scriptedTransport ⟨10⟩ lockValuedRegisters
        (World.start failedWriteAndReadScript)).2.log := by
  decide

/-- C4 (amended): if `PGA308_Enable` returns `PGA_NO_ERROR` then it went through
all six steps, in order, and each value actually received from the transport
equalled the value written in that step.  (Nothing is said about the outcomes
of the single-register operations: `PGA308_Enable` does not look at them.) -/
theorem Enable_no_error {σ : Type} (hal : Transport σ) (h : PGA308_HW_InitTypeDef)
    (regs : PGA308_Registers_InitTypeDef) (s : σ)
    (hres : (PGA308_Enable hal h regs (World.start s)).1 = PGA_NO_ERROR) :
    ops (PGA308_Enable hal h regs (World.start s)).2.log =
      [Op.write 0x07 0x0050, Op.read 0x07,
       Op.write 0x00 regs.REG_ZDAC, Op.read 0x00,
       Op.write 0x01 regs.REG_GDAC, Op.read 0x01,
       Op.write 0x02 regs.REG_CFG0, Op.read 0x02,
       Op.write 0x03 regs.REG_CFG1, Op.read 0x03,
       Op.write 0x04 regs.REG_CFG2, Op.read 0x04] ∧
    ∀ b ∈ readBacks (PGA308_Enable hal h regs (World.start s)).2.log, b = true := by
  obtain ⟨hops, hrb⟩ := RunTrace_no_error h.USART_Timeout (Enable_sequence regs) 0 _ _
    (Enable_trace hal h regs s) hres
  exact ⟨hops, hrb (fun _ => none) none⟩

/-- Witness for C4 (amended): the run with a failed write and a failed read that
still returns `PGA_NO_ERROR`. -/
theorem Enable_no_error_witness :
    (PGA308_Enable scriptedTransport ⟨10⟩ lockValuedRegisters
        (World.start failedWriteAndReadScript)).1 = PGA_NO_ERROR ∧
    (ops (PGA308_Enable scriptedTransport ⟨10⟩ lockValuedRegisters
        (World.start failedWriteAndReadScript)).2.log =
      [Op.write 0x07 0x0050, Op.read 0x07,
       Op.write 0x00 0x0050, Op.read 0x00,
       Op.write 0x01 0x0010, Op.read 0x01,
       Op.write 0x02 0x00FF, Op.read 0x02,
       Op.write 0x03 0x0001, Op.read 0x03,
       Op.write 0x04 0x0080, Op.read 0x04] ∧
     ∀ b ∈ readBacks (PGA308_Enable scriptedTransport ⟨10⟩ lockValuedRegisters
        (World.start failedWriteAndReadScript)).2.log, b = true) :=
  ⟨by decide,
    Enable_no_error scriptedTransport ⟨10⟩ lockValuedRegisters failedWriteAndReadScript
      (by decide)⟩

/-- C12: in every run of `PGA308_Enable` the operations are the first `2 * k`,
for some `k` in 1..6, of write(0x07), read(0x07), write(0x00), read(0x00),
write(0x01), read(0x01), write(0x02), read(0x02), write(0x03), read(0x03),
write(0x04), read(0x04); and every write to an address is immediately followed
by the read of the same address. -/
theorem Enable_write_then_read {σ : Type} (hal : Transport σ) (h : PGA308_HW_InitTypeDef)
    (regs : PGA308_Registers_InitTypeDef) (s : σ) :
    (∃ k, 1 ≤ k ∧ k ≤ 6 ∧
      ops (PGA308_Enable hal h regs (World.start s)).2.log =
        List.take (2 * k)
        [Op.write 0x07 0x0050, Op.read 0x07,
         Op.write 0x00 regs.REG_ZDAC, Op.read 0x00,
         Op.write 0x01 regs.REG_GDAC, Op.read 0x01,
         Op.write 0x02 regs.REG_CFG0, Op.read 0x02,
         Op.write 0x03 regs.REG_CFG1, Op.read 0x03,
         Op.write 0x04 regs.REG_CFG2, Op.read 0x04]) ∧
    (∀ pre a v post,
      ops (PGA308_Enable hal h regs (World.start s)).2.log = pre ++ Op.write a v :: post →
        ∃ post2, post = Op.read a :: post2) := by
  obtain ⟨k, hk, hk1, hops⟩ := RunTrace_ops h.USART_Timeout (Enable_sequence regs) 0 _ _
    (Enable_trace hal h regs s)
  constructor
  · refine ⟨k, hk1 (by simp [Enable_sequence]), by simpa [Enable_sequence] using hk, ?_⟩
    rw [hops, pairOps_take]
    rfl
  · apply writeReadPaired_split _ _ (Nat.le_refl _)
    rw [hops]
    exact writeReadPaired_pairOps _

/-- C17: whatever the configuration set, the transport and the world it starts
from, `PGA308_Enable` returns `PGA_NO_ERROR` or `PGA_INV_REG_DATA_READ` and
never `PGA_HAL_ERROR`. -/
theorem Enable_never_hal_error {σ : Type} (hal : Transport σ) (h : PGA308_HW_InitTypeDef)
    (regs : PGA308_Registers_InitTypeDef) (w : World σ) :
    ((PGA308_Enable hal h regs w).1 = PGA_NO_ERROR ∨
      (PGA308_Enable hal h regs w).1 = PGA_INV_REG_DATA_READ) ∧
    (PGA308_Enable hal h regs w).1 ≠ PGA_HAL_ERROR := by
  rw [Enable_eq_runPairs]
  rcases runPairs_outcome hal h (Enable_sequence regs) 0 w with e | e <;> rw [e] <;> decide

/-! ## The outcome set -/

/-- C13: for every input, transport and world, each of the four operations
returns `PGA_NO_ERROR`, `PGA_HAL_ERROR` or `PGA_INV_REG_DATA_READ`, and neither
`PGA_ID_VERIFY_ERROR` nor `PGA_ERROR`. -/
theorem Outcome_set_closed {σ : Type} (hal : Transport σ) (h : PGA308_HW_InitTypeDef)
    (A V old : Nat) (regs : PGA308_Registers_InitTypeDef) (w : World σ) :
    closedOutcome (PGA308_SingleRegister_Write hal h A V w).1 ∧
    closedOutcome (PGA308_SingleRegister_Read hal h A old w).1 ∧
    closedOutcome (PGA308_Enable hal h regs w).1 ∧
    closedOutcome (PGA308_All_Registers_Read hal h regs w).1 := by
  refine ⟨?_, ?_, ?_, ?_⟩
  · rcases Write_cases hal h A V w with ⟨st, -, -, hr, -⟩ | ⟨st, -, -, hr, -⟩ | ⟨-, hr, -⟩ <;>
      rw [hr] <;> simp [closedOutcome]
  · rcases Read_cases hal h A old w with
      ⟨st, -, -, hr, -, -⟩ | ⟨st, -, -, hr, -, -⟩ | ⟨st, -, -, hr, -, -⟩ |
      ⟨st, b0, b1, -, -, hr, -, -⟩ | ⟨b0, b1, -, -, -, hr, -, -⟩ <;>
      rw [hr] <;> simp [closedOutcome]
  · rw [Enable_eq_runPairs]
    rcases runPairs_outcome hal h (Enable_sequence regs) 0 w with e | e <;> rw [e] <;>
      simp [closedOutcome]
  · show closedOutcome PGA_NO_ERROR
    simp [closedOutcome]

/-! ## The read-back variable of the configuration sequence -/

/-- C18: a single-register read that does not return `PGA_NO_ERROR` leaves the
variable it stores to at its previous content.  Hence, whatever the transport
does: for a configuration set whose consecutive expected values are pairwise
different (0x0050, REG_ZDAC, REG_GDAC, REG_CFG0, REG_CFG1, REG_CFG2), if
`PGA308_Enable` returns `PGA_NO_ERROR` then each of its six reads, of 0x07,
0x00, 0x01, 0x02, 0x03, 0x04, had no failed transport call and received the
expected value; and for every configuration set, a failed read in step 1 makes
`PGA308_Enable` return `PGA_INV_REG_DATA_READ` with no operation after the
lock write and the lock read. -/
theorem Enable_stale_read_back {σ : Type} (hal : Transport σ) (h : PGA308_HW_InitTypeDef)
    (regs : PGA308_Registers_InitTypeDef) (s : σ) :
    (∀ (A old : Nat) (w : World σ),
      (PGA308_SingleRegister_Read hal h A old w).1 ≠ PGA_NO_ERROR →
        (PGA308_SingleRegister_Read hal h A old w).2.1 = old) ∧
    (0x0050 ≠ regs.REG_ZDAC → regs.REG_ZDAC ≠ regs.REG_GDAC →
      regs.REG_GDAC ≠ regs.REG_CFG0 → regs.REG_CFG0 ≠ regs.REG_CFG1 →
      regs.REG_CFG1 ≠ regs.REG_CFG2 →
      (PGA308_Enable hal h regs (World.start s)).1 = PGA_NO_ERROR →
      readOutcomes (PGA308_Enable hal h regs (World.start s)).2.log =
        [(0x07, false, some 0x0050), (0x00, false, some regs.REG_ZDAC),
         (0x01, false, some regs.REG_GDAC), (0x02, false, some regs.REG_CFG0),
         (0x03, false, some regs.REG_CFG1), (0x04, false, some regs.REG_CFG2)]) ∧
    ((∃ r, (readOutcomes (PGA308_Enable hal h regs (World.start s)).2.log).head? =
        some (0x07, true, r)) →
      (PGA308_Enable hal h regs (World.start s)).1 = PGA_INV_REG_DATA_READ ∧
      ops (PGA308_Enable hal h regs (World.start s)).2.log =
        [Op.write 0x07 0x0050, Op.read 0x07]) := by
  refine ⟨?_, ?_, ?_⟩
  · intro A old w hne
    rcases Read_cases hal h A old w with
      ⟨st, -, -, -, ho, -⟩ | ⟨st, -, -, -, ho, -⟩ | ⟨st, -, -, -, ho, -⟩ |
      ⟨st, b0, b1, -, -, -, ho, -⟩ | ⟨b0, b1, -, -, -, hr, -, -⟩
    · exact ho
    · exact ho
    · exact ho
    · exact ho
    · exact absurd hr hne
  · intro h1 h2 h3 h4 h5 hres
    have hchain : List.Chain (fun x y => x ≠ y) 0 ((Enable_sequence regs).map Prod.snd) := by
      simp only [Enable_sequence, List.map_cons, List.map_nil, List.chain_cons,
        PGA_SFTC_SWL_SOFTLOCK]
      exact ⟨by decide, h1, h2, h3, h4, h5, List.Chain.nil⟩
    exact RunTrace_all_reads h.USART_Timeout (Enable_sequence regs) 0 _ _
      (Enable_trace hal h regs s) hres hchain
  · intro hfail
    exact RunTrace_first_read_failed h.USART_Timeout PGA_SFTC_REG PGA_SFTC_SWL_SOFTLOCK _ 0 _ _
      (Enable_trace hal h regs s) (by decide) hfail

/-- Witness for C18: the spec scenario on the echoing chip, whose expected values
are pairwise different and which returns `PGA_NO_ERROR`; and the same
configuration set on a transport whose lock read times out. -/
theorem Enable_stale_read_back_witness :
    ((0x0050 ≠ scenarioRegisters.REG_ZDAC ∧
      scenarioRegisters.REG_ZDAC ≠ scenarioRegisters.REG_GDAC ∧
      scenarioRegisters.REG_GDAC ≠ scenarioRegisters.REG_CFG0 ∧
      scenarioRegisters.REG_CFG0 ≠ scenarioRegisters.REG_CFG1 ∧
      scenarioRegisters.REG_CFG1 ≠ scenarioRegisters.REG_CFG2 ∧
      (PGA308_Enable echoTransport ⟨10⟩ scenarioRegisters (World.start ⟨[], 0⟩)).1 =
        PGA_NO_ERROR) ∧
     readOutcomes (PGA308_Enable echoTransport ⟨10⟩ scenarioRegisters
        (World.start ⟨[], 0⟩)).2.log =
      [(0x07, false, some 0x0050), (0x00, false, some 0x1234), (0x01, false, some 0x0010),
       (0x02, false, some 0x00FF), (0x03, false, some 0x0001), (0x04, false, some 0x0080)]) ∧
    ((∃ r, (readOutcomes (PGA308_Enable scriptedTransport ⟨10⟩ scenarioRegisters
        (World.start failedLockReadScript)).2.log).head? = some (0x07, true, r)) ∧
     (PGA308_Enable scriptedTransport ⟨10⟩ scenarioRegisters
        (World.start failedLockReadScript)).1 = PGA_INV_REG_DATA_READ ∧
     ops (PGA308_Enable scriptedTransport ⟨10⟩ scenarioRegisters
        (World.start failedLockReadScript)).2.log = [Op.write 0x07 0x0050, Op.read 0x07]) :=
  ⟨⟨⟨by decide, by decide, by decide, by decide, by decide, by decide⟩,
      (Enable_stale_read_back echoTransport ⟨10⟩ scenarioRegisters ⟨[], 0⟩).2.1
        (by decide) (by decide) (by decide) (by decide) (by decide) (by decide)⟩,
    ⟨⟨none, by decide⟩,
      (Enable_stale_read_back scriptedTransport ⟨10⟩ scenarioRegisters
        failedLockReadScript).2.2 ⟨none, by decide⟩⟩⟩

/-! ## What the configuration sequence reads of its argument -/

/-- C19: `PGA308_Enable` depends only on the fields REG_ZDAC, REG_GDAC, REG_CFG0,
REG_CFG1, REG_CFG2 of the configuration structure: two structures that agree
on these five fields give, on the same transport from the same world, the same
outcome and the same final world (transport state and record of calls and
frames); and the first thing recorded is always the write of the constant
0x0050 to address 0x07, whatever REG_SFTC holds. -/
theorem Enable_depends_on_five_fields {σ : Type} (hal : Transport σ)
    (h : PGA308_HW_InitTypeDef) (regs1 regs2 : PGA308_Registers_InitTypeDef) (w : World σ)
    (hZDAC : regs1.REG_ZDAC = regs2.REG_ZDAC) (hGDAC : regs1.REG_GDAC = regs2.REG_GDAC)
    (hCFG0 : regs1.REG_CFG0 = regs2.REG_CFG0) (hCFG1 : regs1.REG_CFG1 = regs2.REG_CFG1)
    (hCFG2 : regs1.REG_CFG2 = regs2.REG_CFG2) :
    (PGA308_Enable hal h regs1 w).1 = (PGA308_Enable hal h regs2 w).1 ∧
    (PGA308_Enable hal h regs1 w).2.log = (PGA308_Enable hal h regs2 w).2.log ∧
    (PGA308_Enable hal h regs1 w).2.uart = (PGA308_Enable hal h regs2 w).2.uart ∧
    (∃ T, (PGA308_Enable hal h regs1 w).2.log = w.log ++ Event.call_Write 0x07 0x0050 :: T) := by
  have hseq : Enable_sequence regs1 = Enable_sequence regs2 := by
    simp [Enable_sequence, hZDAC, hGDAC, hCFG0, hCFG1, hCFG2]
  have heq : PGA308_Enable hal h regs1 w = PGA308_Enable hal h regs2 w := by
    rw [Enable_eq_runPairs, Enable_eq_runPairs, hseq]
  refine ⟨by rw [heq], by rw [heq], by rw [heq], ?_⟩
  obtain ⟨T, hl, hT⟩ := runPairs_trace hal h (Enable_sequence regs1) 0 w
  obtain ⟨T2, hT2⟩ := RunTrace_first h.USART_Timeout PGA_SFTC_REG PGA_SFTC_SWL_SOFTLOCK _ 0 _ _ hT
  exact ⟨T2, by rw [Enable_eq_runPairs, hl, hT2]; rfl⟩

/-- Witness for C19: `scenarioRegisters` and `scenarioRegistersVariant`, which
differ in all six other fields, on the echoing chip. -/
theorem Enable_depends_on_five_fields_witness :
    (scenarioRegisters.REG_ZDAC = scenarioRegistersVariant.REG_ZDAC ∧
     scenarioRegisters.REG_GDAC = scenarioRegistersVariant.REG_GDAC ∧
     scenarioRegisters.REG_CFG0 = scenarioRegistersVariant.REG_CFG0 ∧
     scenarioRegisters.REG_CFG1 = scenarioRegistersVariant.REG_CFG1 ∧
     scenarioRegisters.REG_CFG2 = scenarioRegistersVariant.REG_CFG2) ∧
    ((PGA308_Enable echoTransport ⟨10⟩ scenarioRegisters (World.start ⟨[], 0⟩)).1 =
      (PGA308_Enable echoTransport ⟨10⟩ scenarioRegistersVariant (World.start ⟨[], 0⟩)).1 ∧
     (PGA308_Enable echoTransport ⟨10⟩ scenarioRegisters (World.start ⟨[], 0⟩)).2.log =
      (PGA308_Enable echoTransport ⟨10⟩ scenarioRegistersVariant (World.start ⟨[], 0⟩)).2.log ∧
     (PGA308_Enable echoTransport ⟨10⟩ scenarioRegisters (World.start ⟨[], 0⟩)).2.uart =
      (PGA308_Enable echoTransport ⟨10⟩ scenarioRegistersVariant (World.start ⟨[], 0⟩)).2.uart ∧
     (∃ T, (PGA308_Enable echoTransport ⟨10⟩ scenarioRegisters (World.start ⟨[], 0⟩)).2.log =
      (World.start (⟨[], 0⟩ : Chip)).log ++ Event.call_Write 0x07 0x0050 :: T)) :=
  ⟨⟨by decide, by decide, by decide, by decide, by decide⟩,
    Enable_depends_on_five_fields echoTransport ⟨10⟩ scenarioRegisters scenarioRegistersVariant
      (World.start ⟨[], 0⟩) (by decide) (by decide) (by decide) (by decide) (by decide)⟩

end PGA308
